import Mathlib

/-!
A shallow embedding of fixed_size_function.

The C++ class template `fixed_size_function<Ret (Args...), MaxSize>` of
`fixed_size_function.hpp` is embedded as explicit state passing over a memory of
wrapper objects.

* A function pointer stored in `call_`, `destroy_`, `copy_` or `move_` is either
  `nullptr` or the address of the instantiation `call_impl<F>`, `destroy_impl<F>`,
  `copy_impl<F>`, `move_impl<F>` for one functor type `F`; it is represented by
  `Option FunctorType`.
* The behaviour of the functor types (their `operator()`, copy constructor, move
  constructor, size and alignment) is a parameter, `FunctorEnv`.
* Objects live at addresses; member functions take the address of `*this`, so two
  references may alias.
* Every invocation of a table entry and every placement construction is recorded
  in a trace.
* A member function whose instantiation is ill-formed has no value: `create` for a
  type that is too large, and the `operator!=` overloads.
* `operator_call_at` is `operator()` for callables that may look at their own
  address; `operator_call` is the case where they do not.
-/

namespace FixedSizeFunction

/-- Identifier of a concrete functor type, the template argument of the static
`*_impl` functions. -/
abbrev FunctorType := Nat

/-- Address of a wrapper object. -/
abbrev Addr := Nat

/-- The exception thrown by `operator()`. -/
inductive Exception where
  | bad_function_call
  deriving DecidableEq, Repr

/-- The member `storage_` (`std::aligned_storage<MaxSize>::type`): its bytes, kept
abstract, and the type of the object whose lifetime has begun and not ended there. -/
structure Storage (Obj : Type) where
  bytes : Obj
  live : Option FunctorType
  deriving DecidableEq, Repr

/-- The data members of `fixed_size_function<Ret (Args...), MaxSize>`. -/
structure fixed_size_function (Obj : Type) where
  call_ : Option FunctorType
  destroy_ : Option FunctorType
  copy_ : Option FunctorType
  move_ : Option FunctorType
  storage_ : Storage Obj
  deriving DecidableEq, Repr

/-- What the functor types do: `invoke` is `Functor::operator()` (result and the
object afterwards), `copyCtor` the copy constructor (the new object), `moveCtor`
the move constructor (the new object and the moved-from source). -/
structure FunctorEnv (Obj Args Ret : Type) where
  sizeOf : FunctorType → Nat
  alignOf : FunctorType → Nat
  invoke : FunctorType → Obj → Args → Ret × Obj
  copyCtor : FunctorType → Obj → Obj
  moveCtor : FunctorType → Obj → Obj × Obj

/-- Observable steps: a placement construction in `create`, and the table entries
being invoked through `call_`, `destroy_`, `copy_` and `move_`. -/
inductive Event (Args : Type) where
  | construct (F : FunctorType) (self : Addr)
  | call (F : FunctorType) (self : Addr) (args : Args)
  | destroy (F : FunctorType) (self : Addr)
  | copy (F : FunctorType) (src dst : Addr)
  | move (F : FunctorType) (src dst : Addr)
  deriving DecidableEq, Repr

/-- The memory of wrapper objects and the trace of steps so far. -/
structure World (Obj Args : Type) where
  objs : Addr → fixed_size_function Obj
  trace : List (Event Args)

variable {Obj Args Ret : Type}

/-- Overwrite the object at address `a`. -/
def World.set (w : World Obj Args) (a : Addr) (v : fixed_size_function Obj) : World Obj Args :=
  { w with objs := Function.update w.objs a v }

/-- Append a step to the trace. -/
def World.emit (w : World Obj Args) (e : Event Args) : World Obj Args :=
  { w with trace := w.trace ++ [e] }

/-- Assignment to the member `call_` of the object at `a`. -/
def World.setCall (w : World Obj Args) (a : Addr) (p : Option FunctorType) : World Obj Args :=
  w.set a { w.objs a with call_ := p }

/-- Assignment to the member `destroy_` of the object at `a`. -/
def World.setDestroy (w : World Obj Args) (a : Addr) (p : Option FunctorType) : World Obj Args :=
  w.set a { w.objs a with destroy_ := p }

/-- Assignment to the member `copy_` of the object at `a`. -/
def World.setCopy (w : World Obj Args) (a : Addr) (p : Option FunctorType) : World Obj Args :=
  w.set a { w.objs a with copy_ := p }

/-- Assignment to the member `move_` of the object at `a`. -/
def World.setMove (w : World Obj Args) (a : Addr) (p : Option FunctorType) : World Obj Args :=
  w.set a { w.objs a with move_ := p }

/-- Overwrite the member `storage_` of the object at `a`. -/
def World.setStorage (w : World Obj Args) (a : Addr) (s : Storage Obj) : World Obj Args :=
  w.set a { w.objs a with storage_ := s }

/-! ## The static `*_impl` functions -/

/-- `call_impl<F>(functor, args...)`: calls the object in the storage. -/
def call_impl (env : FunctorEnv Obj Args Ret) (F : FunctorType) (functor : Storage Obj)
    (args : Args) : Ret × Storage Obj :=
  ((env.invoke F functor.bytes args).1, { functor with bytes := (env.invoke F functor.bytes args).2 })

/-- `destroy_impl<F>(functor)`: runs the destructor, ending the object's lifetime. -/
def destroy_impl (_F : FunctorType) (functor : Storage Obj) : Storage Obj :=
  { functor with live := none }

/-- `copy_impl<F>(functor, dest)`: placement-new of a copy; gives the new `dest`. -/
def copy_impl (env : FunctorEnv Obj Args Ret) (F : FunctorType) (functor : Storage Obj) :
    Storage Obj :=
  { bytes := env.copyCtor F functor.bytes, live := some F }

/-- `move_impl<F>(functor, dest)`: placement-new by move; gives the new `dest` and
the source storage, whose object is moved-from and still alive. -/
def move_impl (env : FunctorEnv Obj Args Ret) (F : FunctorType) (functor : Storage Obj) :
    Storage Obj × Storage Obj :=
  ({ bytes := (env.moveCtor F functor.bytes).1, live := some F },
   { functor with bytes := (env.moveCtor F functor.bytes).2 })

/-! ## Member functions -/

/-- `reset()`. -/
def reset (w : World Obj Args) (self : Addr) : World Obj Args :=
  match (w.objs self).destroy_ with
  | some F =>
    let w1 := (w.emit (Event.destroy F self)).setStorage self (destroy_impl F (w.objs self).storage_)
    let w2 := w1.setCall self none
    let w3 := w2.setCopy self none
    let w4 := w3.setMove self none
    w4.setDestroy self none
  | none => w

/-- `create(Functor&& f)` with `functor_type = F`. The `static_assert` on the size
is the `none` branch: the instantiation is ill-formed. `byMove` tells whether `f`
was an rvalue (move construction) or an lvalue (copy construction). -/
def create (MaxSize : Nat) (env : FunctorEnv Obj Args Ret) (w : World Obj Args) (self : Addr)
    (F : FunctorType) (f : Obj) (byMove : Bool) : Option (World Obj Args) :=
  if env.sizeOf F ≤ MaxSize then
    let obj := if byMove then (env.moveCtor F f).1 else env.copyCtor F f
    let w1 := (w.emit (Event.construct F self)).setStorage self { bytes := obj, live := some F }
    let w2 := w1.setCall self (some F)
    let w3 := w2.setDestroy self (some F)
    let w4 := w3.setCopy self (some F)
    some (w4.setMove self (some F))
  else none

/-- `copy(fixed_size_function const& src)`. -/
def copy (env : FunctorEnv Obj Args Ret) (w : World Obj Args) (self src : Addr) : World Obj Args :=
  match (w.objs src).copy_ with
  | some F =>
    let w1 := (w.emit (Event.copy F src self)).setStorage self (copy_impl env F (w.objs src).storage_)
    let w2 := w1.setCall self (w1.objs src).call_
    let w3 := w2.setCopy self (w2.objs src).copy_
    let w4 := w3.setMove self (w3.objs src).move_
    w4.setDestroy self (w4.objs src).destroy_
  | none => w

/-- `move(fixed_size_function&& src)`. -/
def move (env : FunctorEnv Obj Args Ret) (w : World Obj Args) (self src : Addr) : World Obj Args :=
  match (w.objs src).move_ with
  | some F =>
    let r := move_impl env F (w.objs src).storage_
    let w0 := ((w.emit (Event.move F src self)).setStorage src r.2).setStorage self r.1
    let w1 := (w0.setCall self (w0.objs src).call_).setCall src none
    let w2 := (w1.setCopy self (w1.objs src).copy_).setCopy src none
    let w3 := (w2.setMove self (w2.objs src).move_).setMove src none
    (w3.setDestroy self (w3.objs src).destroy_).setDestroy src none
  | none => w

/-- The default constructor `fixed_size_function()`; `w.objs self` is the
uninitialised memory the object is built in. -/
def ctor_default (w : World Obj Args) (self : Addr) : World Obj Args :=
  (((w.setCall self none).setDestroy self none).setCopy self none).setMove self none

/-- The constructor `fixed_size_function(std::nullptr_t)`, delegating. -/
def ctor_nullptr (w : World Obj Args) (self : Addr) : World Obj Args :=
  ctor_default w self

/-- The destructor. -/
def dtor (w : World Obj Args) (self : Addr) : World Obj Args :=
  reset w self

/-- `operator=(std::nullptr_t)`. -/
def assign_nullptr (w : World Obj Args) (self : Addr) : World Obj Args :=
  reset w self

/-- The copy constructors `fixed_size_function(fixed_size_function const& src)` and
`fixed_size_function(fixed_size_function& src)`: no member initialisers. -/
def ctor_copy (env : FunctorEnv Obj Args Ret) (w : World Obj Args) (self src : Addr) :
    World Obj Args :=
  copy env w self src

/-- The move constructor `fixed_size_function(fixed_size_function&& src)`: no member
initialisers. -/
def ctor_move (env : FunctorEnv Obj Args Ret) (w : World Obj Args) (self src : Addr) :
    World Obj Args :=
  move env w self src

/-- The template constructor `fixed_size_function(Functor&& f)`. -/
def ctor_functor (MaxSize : Nat) (env : FunctorEnv Obj Args Ret) (w : World Obj Args)
    (self : Addr) (F : FunctorType) (f : Obj) (byMove : Bool) : Option (World Obj Args) :=
  create MaxSize env w self F f byMove

/-- `assign(fixed_size_function const& src)` and `assign(fixed_size_function& src)`,
called by the copy assignment operators. -/
def assign_copy (env : FunctorEnv Obj Args Ret) (w : World Obj Args) (self src : Addr) :
    World Obj Args :=
  copy env (reset w self) self src

/-- `assign(fixed_size_function&& src)`, called by the move assignment operator. -/
def assign_move (env : FunctorEnv Obj Args Ret) (w : World Obj Args) (self src : Addr) :
    World Obj Args :=
  move env (reset w self) self src

/-- `assign(Functor&& f)`, called by the template assignment operator. -/
def assign_functor (MaxSize : Nat) (env : FunctorEnv Obj Args Ret) (w : World Obj Args)
    (self : Addr) (F : FunctorType) (f : Obj) (byMove : Bool) : Option (World Obj Args) :=
  create MaxSize env (reset w self) self F f byMove

/-- `explicit operator bool() const`. -/
def operator_bool (w : World Obj Args) (self : Addr) : Bool :=
  (w.objs self).call_.isSome

/-- `operator()(Args&&... args)`: the result or the exception, and the world after. -/
def operator_call (env : FunctorEnv Obj Args Ret) (w : World Obj Args) (self : Addr)
    (args : Args) : Except Exception Ret × World Obj Args :=
  match (w.objs self).call_ with
  | some F =>
    let r := call_impl env F (w.objs self).storage_ args
    (Except.ok r.1, (w.emit (Event.call F self args)).setStorage self r.2)
  | none => (Except.error Exception.bad_function_call, w)

/-- `call_impl<F>(functor, args...)` for functor types whose `operator()` may depend
on where the object is: `invokeAt F this obj args` is the call of the object with the
bytes `obj` placed at the address `this`, and `call_impl` calls it at `functor`. -/
def call_impl_at (invokeAt : FunctorType → Addr → Obj → Args → Ret × Obj) (F : FunctorType)
    (this : Addr) (functor : Storage Obj) (args : Args) : Ret × Storage Obj :=
  ((invokeAt F this functor.bytes args).1,
   { functor with bytes := (invokeAt F this functor.bytes args).2 })

/-- `operator()(Args&&... args)` with the address passed on: `call_` is invoked with
`&storage_`, the storage of the wrapper at `self`. `operator_call` is the case of
functor types that do not look at their address. -/
def operator_call_at (invokeAt : FunctorType → Addr → Obj → Args → Ret × Obj)
    (w : World Obj Args) (self : Addr) (args : Args) : Except Exception Ret × World Obj Args :=
  match (w.objs self).call_ with
  | some F =>
    let r := call_impl_at invokeAt F self (w.objs self).storage_ args
    (Except.ok r.1, (w.emit (Event.call F self args)).setStorage self r.2)
  | none => (Except.error Exception.bad_function_call, w)

/-- `std::swap` on the members `call_`. -/
def swapCall (w : World Obj Args) (a b : Addr) : World Obj Args :=
  let tmp := (w.objs a).call_
  (w.setCall a (w.objs b).call_).setCall b tmp

/-- `std::swap` on the members `copy_`. -/
def swapCopy (w : World Obj Args) (a b : Addr) : World Obj Args :=
  let tmp := (w.objs a).copy_
  (w.setCopy a (w.objs b).copy_).setCopy b tmp

/-- `std::swap` on the members `move_`. -/
def swapMove (w : World Obj Args) (a b : Addr) : World Obj Args :=
  let tmp := (w.objs a).move_
  (w.setMove a (w.objs b).move_).setMove b tmp

/-- `std::swap` on the members `destroy_`. -/
def swapDestroy (w : World Obj Args) (a b : Addr) : World Obj Args :=
  let tmp := (w.objs a).destroy_
  (w.setDestroy a (w.objs b).destroy_).setDestroy b tmp

/-- `std::swap` on the members `storage_`: the bytes change places, and with them
the objects living in them; no constructor of a held type runs. -/
def swapStorage (w : World Obj Args) (a b : Addr) : World Obj Args :=
  let tmp := (w.objs a).storage_
  (w.setStorage a (w.objs b).storage_).setStorage b tmp

/-- `swap(fixed_size_function& other)`. -/
def swap (w : World Obj Args) (self other : Addr) : World Obj Args :=
  swapStorage (swapDestroy (swapMove (swapCopy (swapCall w self other) self other) self other)
    self other) self other

/-- The friend `swap(fixed_size_function& lhs, fixed_size_function& rhs)`. -/
def friend_swap (w : World Obj Args) (lhs rhs : Addr) : World Obj Args :=
  swap w lhs rhs

/-- `operator==(std::nullptr_t, fixed_size_function const& f)`. -/
def operator_eq_nullptr_left (w : World Obj Args) (f : Addr) : Bool :=
  !operator_bool w f

/-- `operator==(fixed_size_function const& f, std::nullptr_t)`. -/
def operator_eq_nullptr_right (w : World Obj Args) (f : Addr) : Bool :=
  !operator_bool w f

/-- Whether the conversion function `operator bool` is declared `explicit`: it is. -/
def operator_bool_explicit : Bool := true

/-- Copy-initialisation of a `bool` from the wrapper `f`, which is what `return f;`
does in a function returning `bool`. Conversion functions declared `explicit` are not
candidates for it, and `operator bool` is the only conversion function of the class,
so the initialisation is ill-formed, `none`, when that one is `explicit`. -/
def copy_init_bool (w : World Obj Args) (f : Addr) : Option Bool :=
  if operator_bool_explicit then none else some (operator_bool w f)

/-- `operator!=(std::nullptr_t, fixed_size_function const& f)`, whose body is
`return f;`: `none` when the instantiation is ill-formed. -/
def operator_ne_nullptr_left (w : World Obj Args) (f : Addr) : Option Bool :=
  copy_init_bool w f

/-- `operator!=(fixed_size_function const& f, std::nullptr_t)`, whose body is
`return f;`: `none` when the instantiation is ill-formed. -/
def operator_ne_nullptr_right (w : World Obj Args) (f : Addr) : Option Bool :=
  copy_init_bool w f

/-! ## State predicates -/

/-- All four table entries are null. -/
def AllNull (o : fixed_size_function Obj) : Prop :=
  o.call_ = none ∧ o.destroy_ = none ∧ o.copy_ = none ∧ o.move_ = none

/-- All four table entries are the instantiations for the functor type `F`. -/
def BoundTo (F : FunctorType) (o : fixed_size_function Obj) : Prop :=
  o.call_ = some F ∧ o.destroy_ = some F ∧ o.copy_ = some F ∧ o.move_ = some F

/-- The table invariant of the data model: empty, or populated for one type. -/
def Consistent (o : fixed_size_function Obj) : Prop :=
  AllNull o ∨ ∃ F, BoundTo F o

instance (o : fixed_size_function Obj) : Decidable (AllNull o) := by
  unfold AllNull; infer_instance

instance (F : FunctorType) (o : fixed_size_function Obj) : Decidable (BoundTo F o) := by
  unfold BoundTo; infer_instance

/-- The table invariant without the quantifier: the type, if any, is the one of
`call_`. -/
def consistentB (o : fixed_size_function Obj) : Bool :=
  decide (AllNull o) ||
    (match o.call_ with
      | some F => decide (BoundTo F o)
      | none => false)

instance (o : fixed_size_function Obj) : Decidable (Consistent o) :=
  decidable_of_iff (consistentB o = true) (by
    unfold consistentB Consistent
    constructor
    · intro h
      rcases Bool.or_eq_true _ _ ▸ h with h | h
      · exact Or.inl (of_decide_eq_true h)
      · cases hc : o.call_ with
        | none => rw [hc] at h; cases h
        | some F => rw [hc] at h; exact Or.inr ⟨F, of_decide_eq_true h⟩
    · rintro (h | ⟨F, hF⟩)
      · simp [h]
      · simp [hF.1, hF])

/-- All four table entries are non-null. -/
def AllSet (o : fixed_size_function Obj) : Prop :=
  o.call_ ≠ none ∧ o.destroy_ ≠ none ∧ o.copy_ ≠ none ∧ o.move_ ≠ none

/-- The four table entries are all null or all non-null. -/
def NullOrSet (o : fixed_size_function Obj) : Prop :=
  AllNull o ∨ AllSet o

/-- The table invariant together with the storage: the entries are all null, or
they are all bound to one functor type and an object of that type is alive in
`storage_`. -/
def TableInvariant (o : fixed_size_function Obj) : Prop :=
  AllNull o ∨ ∃ F, BoundTo F o ∧ o.storage_.live = some F

instance (o : fixed_size_function Obj) : Decidable (AllSet o) := by
  unfold AllSet; infer_instance

instance (o : fixed_size_function Obj) : Decidable (NullOrSet o) := by
  unfold NullOrSet; infer_instance

/-- The invariant `TableInvariant` without the quantifier. -/
def tableInvariantB (o : fixed_size_function Obj) : Bool :=
  decide (AllNull o) ||
    (match o.call_ with
      | some F => decide (BoundTo F o ∧ o.storage_.live = some F)
      | none => false)

instance (o : fixed_size_function Obj) : Decidable (TableInvariant o) :=
  decidable_of_iff (tableInvariantB o = true) (by
    unfold tableInvariantB TableInvariant
    constructor
    · intro h
      rcases Bool.or_eq_true _ _ ▸ h with h | h
      · exact Or.inl (of_decide_eq_true h)
      · cases hc : o.call_ with
        | none => rw [hc] at h; cases h
        | some F => rw [hc] at h; exact Or.inr ⟨F, of_decide_eq_true h⟩
    · rintro (h | ⟨F, hF, hl⟩)
      · simp [h]
      · simp [hF.1, hF, hl])

/-- A property `P` of wrapper objects holds for the operands after each of the
mutating operations: `reset`, assignment from `nullptr`, assignment from a callable
`g` of type `G`, copy assignment and move assignment of `b` to `a` (for `a` and for
`b`), `swap` of `a` and `b` (for both), and `operator()` on `a`. -/
def HoldsAfterOps (P : fixed_size_function Obj → Prop) (MaxSize : Nat)
    (env : FunctorEnv Obj Args Ret) (w : World Obj Args) (a b : Addr) (G : FunctorType)
    (g : Obj) (byMove : Bool) (args : Args) : Prop :=
  P ((reset w a).objs a) ∧
  P ((assign_nullptr w a).objs a) ∧
  (∃ w1, assign_functor MaxSize env w a G g byMove = some w1 ∧ P (w1.objs a)) ∧
  P ((assign_copy env w a b).objs a) ∧
  P ((assign_copy env w a b).objs b) ∧
  P ((assign_move env w a b).objs a) ∧
  P ((assign_move env w a b).objs b) ∧
  P ((swap w a b).objs a) ∧
  P ((swap w a b).objs b) ∧
  P ((operator_call env w a args).2.objs a)

/-! ## Traces -/

/-- The step invokes a table entry on the object in the storage at `a`: a call or a
destruction there, or a copy or move with the storage at `a` as source. -/
def Event.usesObj : Event Args → Addr → Bool
  | Event.construct _ _, _ => false
  | Event.call _ s _, a => s == a
  | Event.destroy _ s, a => s == a
  | Event.copy _ src _, a => src == a
  | Event.move _ src _, a => src == a

/-- The step constructs a new object in the storage at `a`. -/
def Event.buildsAt : Event Args → Addr → Bool
  | Event.construct _ s, a => s == a
  | Event.call _ _ _, _ => false
  | Event.destroy _ _, _ => false
  | Event.copy _ _ dst, a => dst == a
  | Event.move _ _ dst, a => dst == a

/-- The storages whose object has been destroyed and not replaced, after the step. -/
def deadAfter (dead : List Addr) (e : Event Args) : List Addr :=
  match e with
  | Event.destroy _ s => s :: dead
  | _ => dead.filter (fun a => !e.buildsAt a)

/-- No step of the trace invokes a table entry on a storage whose object has been
destroyed by an earlier step and not replaced since; `dead` are the storages already
in that condition. -/
def noUseAfterDestroy : List Addr → List (Event Args) → Bool
  | _, [] => true
  | dead, e :: es => !(dead.any (fun a => e.usesObj a)) && noUseAfterDestroy (deadAfter dead e) es

/-- The number of objects constructed in place by the steps of a trace: by `create`,
`copy_impl` and `move_impl`. -/
def constructions (t : List (Event Args)) : Nat :=
  (t.filter (fun e => match e with
    | Event.construct _ _ => true
    | Event.copy _ _ _ => true
    | Event.move _ _ _ => true
    | _ => false)).length

/-- The number of invocations of a destroy entry in a trace. -/
def destructions (t : List (Event Args)) : Nat :=
  (t.filter (fun e => match e with
    | Event.destroy _ _ => true
    | _ => false)).length

/-! ## Concrete data for the examples -/

/-- Functor types whose constructors copy the bytes and whose call returns its
argument plus the stored number, as the identity-like callables of `tests.cpp`. -/
def plainEnv : FunctorEnv Nat Nat Nat where
  sizeOf := fun _ => 8
  alignOf := fun _ => 8
  invoke := fun _ o a => (a + o, o)
  copyCtor := fun _ o => o
  moveCtor := fun _ o => (o, o)

/-- A functor type whose copy and move constructors count the copies made, and
whose call adds that count to its argument. -/
def countingEnv : FunctorEnv Nat Nat Nat where
  sizeOf := fun _ => 8
  alignOf := fun _ => 8
  invoke := fun _ o a => (a + o, o)
  copyCtor := fun _ o => o + 1
  moveCtor := fun _ o => (o + 1, o)

/-- An object with all entries null. -/
def emptyObj : fixed_size_function Nat :=
  { call_ := none, destroy_ := none, copy_ := none, move_ := none,
    storage_ := { bytes := 0, live := none } }

/-- An object holding a functor of type `F` with the bytes `b`. -/
def heldObj (F : FunctorType) (b : Nat) : fixed_size_function Nat :=
  { call_ := some F, destroy_ := some F, copy_ := some F, move_ := some F,
    storage_ := { bytes := b, live := some F } }

/-- Memory left behind by an earlier object: what an object without member
initialisers starts from. -/
def staleObj : fixed_size_function Nat :=
  { call_ := some 7, destroy_ := some 7, copy_ := some 7, move_ := some 7,
    storage_ := { bytes := 0, live := none } }

/-- A memory with every object empty and no steps made. -/
def emptyWorld : World Nat Nat :=
  { objs := fun _ => emptyObj, trace := [] }

/-- A functor type declared with `alignas(64)`: its size is 64 as well. -/
def overalignedEnv : FunctorEnv Nat Nat Nat where
  sizeOf := fun _ => 64
  alignOf := fun _ => 64
  invoke := fun _ o a => (a + o, o)
  copyCtor := fun _ o => o
  moveCtor := fun _ o => (o, o)

/-- An alignment of the storage cell for the examples: the 16 that
`std::aligned_storage<MaxSize>::type` has on the usual 64-bit platforms. -/
def exampleStorageAlign : Nat := 16

/-- The scenario `function a(x); function b(std::move(a));` followed by the
destructors of `b` and of `a`: `a` is at address `1`, `b` at address `0`, the
callable `x` has type `0` and bytes `3`. -/
def moveThenDestroy : Option (World Nat Nat) :=
  (ctor_functor 256 plainEnv emptyWorld 1 0 3 false).map
    (fun w1 => dtor (dtor (ctor_move plainEnv w1 0 1) 0) 1)


/-! ## Characterisation of the member functions -/

section Lemmas
variable {Obj Args Ret : Type}

theorem reset_of_none (w : World Obj Args) (self : Addr)
    (h : (w.objs self).destroy_ = none) : reset w self = w := by
  simp [reset, h]

theorem reset_objs_of_ne (w : World Obj Args) (self x : Addr) (hx : x ≠ self) :
    (reset w self).objs x = w.objs x := by
  unfold reset
  cases (w.objs self).destroy_ <;>
    simp [World.set, World.emit, World.setCall, World.setDestroy, World.setCopy, World.setMove,
      World.setStorage, Function.update, hx]

theorem reset_objs_self (w : World Obj Args) (self : Addr) (F : FunctorType)
    (h : (w.objs self).destroy_ = some F) :
    (reset w self).objs self =
      { call_ := none, destroy_ := none, copy_ := none, move_ := none,
        storage_ := destroy_impl F (w.objs self).storage_ } := by
  simp [reset, h, World.set, World.emit, World.setCall, World.setDestroy, World.setCopy,
    World.setMove, World.setStorage]

theorem reset_trace (w : World Obj Args) (self : Addr) :
    (reset w self).trace =
      w.trace ++ (match (w.objs self).destroy_ with
        | some F => [Event.destroy F self]
        | none => []) := by
  unfold reset
  cases (w.objs self).destroy_ <;>
    simp [World.set, World.emit, World.setCall, World.setDestroy, World.setCopy, World.setMove,
      World.setStorage]

theorem reset_allNull (w : World Obj Args) (self : Addr) (h : Consistent (w.objs self)) :
    AllNull ((reset w self).objs self) := by
  rcases h with h | ⟨F, hF⟩
  · rw [reset_of_none w self h.2.1]; exact h
  · rw [reset_objs_self w self F hF.2.1]; exact ⟨rfl, rfl, rfl, rfl⟩

theorem copy_of_none (env : FunctorEnv Obj Args Ret) (w : World Obj Args) (self src : Addr)
    (h : (w.objs src).copy_ = none) : copy env w self src = w := by
  simp [copy, h]

theorem copy_objs_of_ne (env : FunctorEnv Obj Args Ret) (w : World Obj Args)
    (self src x : Addr) (hx : x ≠ self) : (copy env w self src).objs x = w.objs x := by
  unfold copy
  cases (w.objs src).copy_ <;>
    simp [World.set, World.emit, World.setCall, World.setDestroy, World.setCopy, World.setMove,
      World.setStorage, Function.update, hx]

theorem copy_objs_self (env : FunctorEnv Obj Args Ret) (w : World Obj Args) (self src : Addr)
    (F : FunctorType) (hne : self ≠ src) (h : (w.objs src).copy_ = some F) :
    (copy env w self src).objs self =
      { call_ := (w.objs src).call_, destroy_ := (w.objs src).destroy_,
        copy_ := (w.objs src).copy_, move_ := (w.objs src).move_,
        storage_ := copy_impl env F (w.objs src).storage_ } := by
  have hne2 : ¬ src = self := fun e => hne e.symm
  simp [copy, h, World.set, World.emit, World.setCall, World.setDestroy, World.setCopy,
    World.setMove, World.setStorage, Function.update, hne2]

theorem copy_trace (env : FunctorEnv Obj Args Ret) (w : World Obj Args) (self src : Addr) :
    (copy env w self src).trace =
      w.trace ++ (match (w.objs src).copy_ with
        | some F => [Event.copy F src self]
        | none => []) := by
  unfold copy
  cases (w.objs src).copy_ <;>
    simp [World.set, World.emit, World.setCall, World.setDestroy, World.setCopy, World.setMove,
      World.setStorage]

theorem move_of_none (env : FunctorEnv Obj Args Ret) (w : World Obj Args) (self src : Addr)
    (h : (w.objs src).move_ = none) : move env w self src = w := by
  simp [move, h]

theorem move_objs_of_ne (env : FunctorEnv Obj Args Ret) (w : World Obj Args)
    (self src x : Addr) (hx : x ≠ self) (hs : x ≠ src) :
    (move env w self src).objs x = w.objs x := by
  unfold move
  cases (w.objs src).move_ <;>
    simp [World.set, World.emit, World.setCall, World.setDestroy, World.setCopy, World.setMove,
      World.setStorage, Function.update, hx, hs]

theorem move_objs_self (env : FunctorEnv Obj Args Ret) (w : World Obj Args) (self src : Addr)
    (F : FunctorType) (hne : self ≠ src) (h : (w.objs src).move_ = some F) :
    (move env w self src).objs self =
      { call_ := (w.objs src).call_, destroy_ := (w.objs src).destroy_,
        copy_ := (w.objs src).copy_, move_ := (w.objs src).move_,
        storage_ := (move_impl env F (w.objs src).storage_).1 } := by
  have hne2 : ¬ src = self := fun e => hne e.symm
  simp [move, h, World.set, World.emit, World.setCall, World.setDestroy, World.setCopy,
    World.setMove, World.setStorage, Function.update, hne, hne2]

theorem move_objs_src (env : FunctorEnv Obj Args Ret) (w : World Obj Args) (self src : Addr)
    (F : FunctorType) (hne : self ≠ src) (h : (w.objs src).move_ = some F) :
    (move env w self src).objs src =
      { call_ := none, destroy_ := none, copy_ := none, move_ := none,
        storage_ := (move_impl env F (w.objs src).storage_).2 } := by
  have hne2 : ¬ src = self := fun e => hne e.symm
  simp [move, h, World.set, World.emit, World.setCall, World.setDestroy, World.setCopy,
    World.setMove, World.setStorage, Function.update, hne, hne2]

theorem move_trace (env : FunctorEnv Obj Args Ret) (w : World Obj Args) (self src : Addr) :
    (move env w self src).trace =
      w.trace ++ (match (w.objs src).move_ with
        | some F => [Event.move F src self]
        | none => []) := by
  unfold move
  cases (w.objs src).move_ <;>
    simp [World.set, World.emit, World.setCall, World.setDestroy, World.setCopy, World.setMove,
      World.setStorage]

theorem create_eq (MaxSize : Nat) (env : FunctorEnv Obj Args Ret) (w : World Obj Args)
    (self : Addr) (F : FunctorType) (f : Obj) (byMove : Bool) (hsize : env.sizeOf F ≤ MaxSize) :
    ∃ w1, create MaxSize env w self F f byMove = some w1 ∧
      w1.objs self =
        { call_ := some F, destroy_ := some F, copy_ := some F, move_ := some F,
          storage_ := { bytes := if byMove then (env.moveCtor F f).1 else env.copyCtor F f,
                        live := some F } } ∧
      (∀ x, x ≠ self → w1.objs x = w.objs x) ∧
      w1.trace = w.trace ++ [Event.construct F self] := by
  refine ⟨_, by simp [create, hsize]; rfl, ?_, ?_, ?_⟩
  · simp [World.set, World.emit, World.setCall, World.setDestroy, World.setCopy,
      World.setMove, World.setStorage]
  · intro x hx
    simp [World.set, World.emit, World.setCall, World.setDestroy, World.setCopy,
      World.setMove, World.setStorage, Function.update, hx]
  · simp [World.set, World.emit, World.setCall, World.setDestroy, World.setCopy,
      World.setMove, World.setStorage]

theorem operator_call_of_some (env : FunctorEnv Obj Args Ret) (w : World Obj Args)
    (self : Addr) (args : Args) (F : FunctorType) (h : (w.objs self).call_ = some F) :
    (operator_call env w self args).1 =
      Except.ok (env.invoke F (w.objs self).storage_.bytes args).1 := by
  simp [operator_call, h, call_impl]

theorem swap_objs (w : World Obj Args) (a b : Addr) :
    (swap w a b).objs = Function.update (Function.update w.objs a (w.objs b)) b (w.objs a) := by
  funext x
  by_cases hab : a = b
  · subst hab
    by_cases hx : x = a
    · subst hx
      simp [swap, swapStorage, swapDestroy, swapMove, swapCopy, swapCall, World.set,
        World.setCall, World.setDestroy, World.setCopy, World.setMove, World.setStorage]
    · simp [swap, swapStorage, swapDestroy, swapMove, swapCopy, swapCall, World.set,
        World.setCall, World.setDestroy, World.setCopy, World.setMove, World.setStorage,
        Function.update, hx]
  · have hba : ¬ b = a := fun h => hab h.symm
    by_cases hxa : x = a
    · subst hxa
      simp [swap, swapStorage, swapDestroy, swapMove, swapCopy, swapCall, World.set,
        World.setCall, World.setDestroy, World.setCopy, World.setMove, World.setStorage,
        Function.update, hab, hba]
    · by_cases hxb : x = b
      · subst hxb
        simp [swap, swapStorage, swapDestroy, swapMove, swapCopy, swapCall, World.set,
          World.setCall, World.setDestroy, World.setCopy, World.setMove, World.setStorage,
          Function.update, hab, hba]
      · simp [swap, swapStorage, swapDestroy, swapMove, swapCopy, swapCall, World.set,
          World.setCall, World.setDestroy, World.setCopy, World.setMove, World.setStorage,
          Function.update, hxa, hxb]

theorem swap_trace (w : World Obj Args) (a b : Addr) : (swap w a b).trace = w.trace := by
  simp [swap, swapStorage, swapDestroy, swapMove, swapCopy, swapCall, World.set,
    World.setCall, World.setDestroy, World.setCopy, World.setMove, World.setStorage]

theorem swap_objs_left (w : World Obj Args) (a b : Addr) : (swap w a b).objs a = w.objs b := by
  rw [swap_objs]
  by_cases hab : a = b
  · subst hab; simp
  · simp [Function.update, hab]

theorem swap_objs_right (w : World Obj Args) (a b : Addr) : (swap w a b).objs b = w.objs a := by
  rw [swap_objs]; simp

theorem operator_eq_nullptr_iff (w : World Obj Args) (f : Addr) :
    (operator_eq_nullptr_left w f = true ↔ (w.objs f).call_ = none) ∧
    (operator_eq_nullptr_right w f = true ↔ (w.objs f).call_ = none) ∧
    operator_eq_nullptr_left w f = !operator_bool w f ∧
    operator_eq_nullptr_right w f = !operator_bool w f := by
  unfold operator_eq_nullptr_left operator_eq_nullptr_right operator_bool
  cases (w.objs f).call_ <;> simp

theorem operator_ne_nullptr_none (w : World Obj Args) (f : Addr) :
    operator_ne_nullptr_left w f = none ∧ operator_ne_nullptr_right w f = none :=
  ⟨rfl, rfl⟩

theorem operator_call_at_plain (env : FunctorEnv Obj Args Ret) (w : World Obj Args)
    (self : Addr) (args : Args) :
    operator_call_at (fun F _ => env.invoke F) w self args = operator_call env w self args :=
  rfl

theorem operator_call_congr (env : FunctorEnv Obj Args Ret) (w v : World Obj Args)
    (a b : Addr) (args : Args) (h : w.objs a = v.objs b) :
    (operator_call env w a args).1 = (operator_call env v b args).1 := by
  unfold operator_call
  rw [h]
  cases (v.objs b).call_ <;> rfl

end Lemmas

/-! ## Claims -/

section Claims
variable {Obj Args Ret : Type}

/-- C1, as stated, fails: with a functor type whose copy constructor changes what
the call returns (here it counts copies), the wrapper constructed from the callable
`C` with bytes `0` returns `6` on the argument `5`, while `C(5)` is `5`; the size of
the type is within `MaxSize = 256`. -/
theorem C1_counterexample :
    countingEnv.sizeOf 0 ≤ 256 ∧
    (ctor_functor 256 countingEnv emptyWorld 0 0 0 false).map
        (fun w1 => (operator_call countingEnv w1 0 5).1) = some (Except.ok 6) ∧
    (countingEnv.invoke 0 0 5).1 = 5 := by
  refine ⟨by decide, rfl, rfl⟩

/-- C1, amended: for a callable `f` of a type `F` with `sizeof(F) <= MaxSize` whose
copy constructor (when `f` is passed as an lvalue) or move constructor (when `f` is
passed as an rvalue) preserves the result of a call, the wrapper constructed
from `f` (template constructor, on any uninitialised memory) and the wrapper assigned
from `f` (template `operator=` / `assign`, on any prior state) exist, have all four
entries bound to `F`, are populated, and return on `args` exactly what `f(args)`
returns. -/
theorem C1_construct_from_callable (MaxSize : Nat) (env : FunctorEnv Obj Args Ret)
    (w : World Obj Args) (self : Addr) (F : FunctorType) (f : Obj) (byMove : Bool) (args : Args)
    (hsize : env.sizeOf F ≤ MaxSize)
    (hcopy : byMove = false →
      ∀ o a, (env.invoke F (env.copyCtor F o) a).1 = (env.invoke F o a).1)
    (hmove : byMove = true →
      ∀ o a, (env.invoke F (env.moveCtor F o).1 a).1 = (env.invoke F o a).1) :
    (∃ w1, ctor_functor MaxSize env w self F f byMove = some w1 ∧
      BoundTo F (w1.objs self) ∧ operator_bool w1 self = true ∧
      (operator_call env w1 self args).1 = Except.ok (env.invoke F f args).1) ∧
    (∃ w1, assign_functor MaxSize env w self F f byMove = some w1 ∧
      BoundTo F (w1.objs self) ∧ operator_bool w1 self = true ∧
      (operator_call env w1 self args).1 = Except.ok (env.invoke F f args).1) := by
  have key : ∀ v : World Obj Args, ∃ w1, create MaxSize env v self F f byMove = some w1 ∧
      BoundTo F (w1.objs self) ∧ operator_bool w1 self = true ∧
      (operator_call env w1 self args).1 = Except.ok (env.invoke F f args).1 := by
    intro v
    obtain ⟨w1, hw1, hobj, -, -⟩ := create_eq MaxSize env v self F f byMove hsize
    refine ⟨w1, hw1, ?_, ?_, ?_⟩
    · rw [hobj]; exact ⟨rfl, rfl, rfl, rfl⟩
    · simp [operator_bool, hobj]
    · rw [operator_call_of_some env w1 self args F (by rw [hobj]), hobj]
      cases byMove
      · simp [hcopy rfl]
      · simp [hmove rfl]
  exact ⟨key w, key (reset w self)⟩

/-- C1, amended, at a concrete input: the functor type `0` of `plainEnv`, bytes `3`,
argument `5`. -/
theorem C1_construct_from_callable_witness :
    plainEnv.sizeOf 0 ≤ 256 ∧
    (∃ w1, ctor_functor 256 plainEnv emptyWorld 0 0 3 false = some w1 ∧
      BoundTo 0 (w1.objs 0) ∧ operator_bool w1 0 = true ∧
      (operator_call plainEnv w1 0 5).1 = Except.ok (plainEnv.invoke 0 3 5).1) ∧
    (∃ w1, assign_functor 256 plainEnv emptyWorld 0 0 3 false = some w1 ∧
      BoundTo 0 (w1.objs 0) ∧ operator_bool w1 0 = true ∧
      (operator_call plainEnv w1 0 5).1 = Except.ok (plainEnv.invoke 0 3 5).1) :=
  ⟨by decide,
   C1_construct_from_callable 256 plainEnv emptyWorld 0 0 3 false 5 (by decide)
     (fun _ _ _ => rfl) (fun h => absurd h (by decide))⟩

/-- C2: a default-constructed wrapper and one constructed from `nullptr` have all
four entries null and are empty, whatever the memory they are built in; and in every
state, `operator()` throws `std::bad_function_call` if and only if the wrapper is
empty, in which case the memory and the trace are unchanged (no value is returned,
no table entry is invoked). -/
theorem C2_empty_call_raises (env : FunctorEnv Obj Args Ret) (w : World Obj Args)
    (self : Addr) (args : Args) :
    AllNull ((ctor_default w self).objs self) ∧
    operator_bool (ctor_default w self) self = false ∧
    AllNull ((ctor_nullptr w self).objs self) ∧
    operator_bool (ctor_nullptr w self) self = false ∧
    ((operator_call env w self args).1 = Except.error Exception.bad_function_call ↔
      operator_bool w self = false) ∧
    (operator_bool w self = false → (operator_call env w self args).2 = w) := by
  have h1 : AllNull ((ctor_default w self).objs self) := by
    simp [AllNull, ctor_default, World.set, World.setCall, World.setDestroy, World.setCopy,
      World.setMove]
  have h2 : operator_bool (ctor_default w self) self = false := by
    simp [operator_bool, h1.1]
  refine ⟨h1, h2, h1, h2, ?_, ?_⟩
  · unfold operator_call operator_bool
    cases (w.objs self).call_ <;> simp
  · unfold operator_call operator_bool
    cases (w.objs self).call_ <;> simp

/-- C2 at a concrete input: calling the empty wrapper at address `0` with the
argument `5` throws and leaves the world as it was. -/
theorem C2_empty_call_raises_witness :
    operator_bool emptyWorld 0 = false ∧
    (operator_call plainEnv emptyWorld 0 5).1 = Except.error Exception.bad_function_call ∧
    (operator_call plainEnv emptyWorld 0 5).2 = emptyWorld :=
  ⟨rfl, (C2_empty_call_raises plainEnv emptyWorld 0 5).2.2.2.2.1.2 rfl,
   (C2_empty_call_raises plainEnv emptyWorld 0 5).2.2.2.2.2 rfl⟩

/-- C3: for a source `src` whose four entries are bound to a type `F` whose move
constructor preserves the result of a call, and a destination `dst` at another
address in any state, both move construction and move assignment leave `src` with
all four entries null and `bool(src) == false`, and leave `dst` with all four entries
bound to `F`, populated, and returning on every argument list what `src` returned
before the move. -/
theorem C3_move_transfers (env : FunctorEnv Obj Args Ret) (w : World Obj Args)
    (dst src : Addr) (F : FunctorType) (args : Args)
    (hne : dst ≠ src) (hsrc : BoundTo F (w.objs src))
    (hmove : ∀ o a, (env.invoke F (env.moveCtor F o).1 a).1 = (env.invoke F o a).1) :
    (AllNull ((ctor_move env w dst src).objs src) ∧
      operator_bool (ctor_move env w dst src) src = false ∧
      BoundTo F ((ctor_move env w dst src).objs dst) ∧
      operator_bool (ctor_move env w dst src) dst = true ∧
      (operator_call env (ctor_move env w dst src) dst args).1 =
        (operator_call env w src args).1) ∧
    (AllNull ((assign_move env w dst src).objs src) ∧
      operator_bool (assign_move env w dst src) src = false ∧
      BoundTo F ((assign_move env w dst src).objs dst) ∧
      operator_bool (assign_move env w dst src) dst = true ∧
      (operator_call env (assign_move env w dst src) dst args).1 =
        (operator_call env w src args).1) := by
  have key : ∀ v : World Obj Args, v.objs src = w.objs src →
      AllNull ((move env v dst src).objs src) ∧
      operator_bool (move env v dst src) src = false ∧
      BoundTo F ((move env v dst src).objs dst) ∧
      operator_bool (move env v dst src) dst = true ∧
      (operator_call env (move env v dst src) dst args).1 =
        (operator_call env w src args).1 := by
    intro v hv
    have hm : (v.objs src).move_ = some F := by rw [hv]; exact hsrc.2.2.2
    have hd := move_objs_self env v dst src F hne hm
    have hs := move_objs_src env v dst src F hne hm
    rw [hv] at hd
    refine ⟨?_, ?_, ?_, ?_, ?_⟩
    · rw [hs]; exact ⟨rfl, rfl, rfl, rfl⟩
    · simp [operator_bool, hs]
    · rw [hd]; exact hsrc
    · simp [operator_bool, hd, hsrc.1]
    · rw [operator_call_of_some env _ dst args F (by rw [hd]; exact hsrc.1),
        operator_call_of_some env w src args F hsrc.1, hd]
      simp [move_impl, hmove]
  exact ⟨key w rfl, key (reset w dst) (reset_objs_of_ne w dst src (Ne.symm hne))⟩

/-- C3 at a concrete input: the wrapper at address `1` holds a functor with bytes
`3`, the destination at address `0` holds another one. -/
theorem C3_move_transfers_witness :
    AllNull ((assign_move plainEnv ((emptyWorld.set 0 (heldObj 2 9)).set 1 (heldObj 0 3))
      0 1).objs 1) ∧
    (operator_call plainEnv
      (assign_move plainEnv ((emptyWorld.set 0 (heldObj 2 9)).set 1 (heldObj 0 3)) 0 1)
      0 5).1 =
      (operator_call plainEnv ((emptyWorld.set 0 (heldObj 2 9)).set 1 (heldObj 0 3)) 1 5).1 :=
  have h := C3_move_transfers plainEnv ((emptyWorld.set 0 (heldObj 2 9)).set 1 (heldObj 0 3))
    0 1 0 5 (by decide) ⟨rfl, rfl, rfl, rfl⟩ (fun _ _ => rfl)
  ⟨h.2.1, h.2.2.2.2.2⟩

/-- C4, as stated, fails: with a functor type whose copy constructor changes what
the call returns, the source at address `1` returns `8` on the argument `5` and the
wrapper copy-constructed from it at address `0` returns `9`. -/
theorem C4_counterexample :
    BoundTo 0 ((emptyWorld.set 1 (heldObj 0 3)).objs 1) ∧
    (operator_call countingEnv (emptyWorld.set 1 (heldObj 0 3)) 1 5).1 = Except.ok 8 ∧
    (operator_call countingEnv (ctor_copy countingEnv (emptyWorld.set 1 (heldObj 0 3)) 0 1)
      0 5).1 = Except.ok 9 ∧
    (operator_call countingEnv (ctor_copy countingEnv (emptyWorld.set 1 (heldObj 0 3)) 0 1)
      1 5).1 = Except.ok 8 := by
  refine ⟨⟨rfl, rfl, rfl, rfl⟩, rfl, rfl, rfl⟩

/-- C4, amended: for a source `src` whose four entries are bound to a type `F` whose
copy constructor preserves the result of a call, and a destination `dst` at another
address in any state, both copy construction and copy assignment leave `dst` with
the same four entries as `src` and a storage holding the copy-constructed callable,
so that on every argument list it returns what `src` returns, and leave `src` itself
(entries and storage) unchanged. -/
theorem C4_copy_duplicates (env : FunctorEnv Obj Args Ret) (w : World Obj Args)
    (dst src : Addr) (F : FunctorType) (args : Args)
    (hne : dst ≠ src) (hsrc : BoundTo F (w.objs src))
    (hcopy : ∀ o a, (env.invoke F (env.copyCtor F o) a).1 = (env.invoke F o a).1) :
    ((ctor_copy env w dst src).objs dst =
        { w.objs src with storage_ := copy_impl env F (w.objs src).storage_ } ∧
      BoundTo F ((ctor_copy env w dst src).objs dst) ∧
      (ctor_copy env w dst src).objs src = w.objs src ∧
      (operator_call env (ctor_copy env w dst src) dst args).1 =
        (operator_call env (ctor_copy env w dst src) src args).1) ∧
    ((assign_copy env w dst src).objs dst =
        { w.objs src with storage_ := copy_impl env F (w.objs src).storage_ } ∧
      BoundTo F ((assign_copy env w dst src).objs dst) ∧
      (assign_copy env w dst src).objs src = w.objs src ∧
      (operator_call env (assign_copy env w dst src) dst args).1 =
        (operator_call env (assign_copy env w dst src) src args).1) := by
  have key : ∀ v : World Obj Args, v.objs src = w.objs src →
      (copy env v dst src).objs dst =
        { w.objs src with storage_ := copy_impl env F (w.objs src).storage_ } ∧
      BoundTo F ((copy env v dst src).objs dst) ∧
      (copy env v dst src).objs src = w.objs src ∧
      (operator_call env (copy env v dst src) dst args).1 =
        (operator_call env (copy env v dst src) src args).1 := by
    intro v hv
    have hc : (v.objs src).copy_ = some F := by rw [hv]; exact hsrc.2.2.1
    have hd := copy_objs_self env v dst src F hne hc
    have hs := copy_objs_of_ne env v dst src src (Ne.symm hne)
    rw [hv] at hd hs
    refine ⟨hd, ?_, hs, ?_⟩
    · rw [hd]; exact hsrc
    · rw [operator_call_of_some env _ dst args F (by rw [hd]; exact hsrc.1),
        operator_call_of_some env _ src args F (by rw [hs]; exact hsrc.1), hd, hs]
      simp [copy_impl, hcopy]
  exact ⟨key w rfl, key (reset w dst) (reset_objs_of_ne w dst src (Ne.symm hne))⟩

/-- C4, amended, at a concrete input: the wrapper at address `1` holds a functor
with bytes `3`, the destination at address `0` holds another one. -/
theorem C4_copy_duplicates_witness :
    BoundTo 0 ((assign_copy plainEnv ((emptyWorld.set 0 (heldObj 2 9)).set 1 (heldObj 0 3))
      0 1).objs 0) ∧
    (assign_copy plainEnv ((emptyWorld.set 0 (heldObj 2 9)).set 1 (heldObj 0 3)) 0 1).objs 1 =
      ((emptyWorld.set 0 (heldObj 2 9)).set 1 (heldObj 0 3)).objs 1 :=
  have h := C4_copy_duplicates plainEnv ((emptyWorld.set 0 (heldObj 2 9)).set 1 (heldObj 0 3))
    0 1 0 5 (by decide) ⟨rfl, rfl, rfl, rfl⟩ (fun _ _ => rfl)
  ⟨h.2.2.1, h.2.2.2.1⟩

end Claims

section Claims2
variable {Obj Args Ret : Type}

/-- C5, the code at the failing input: the source at address `1` is empty, and the
object at address `0` is built by the copy constructor, or by the move constructor,
in memory that an earlier object left behind. Neither constructor initialises the
four entries and `copy` / `move` skip an empty source, so the new wrapper keeps the
stale entries: it is not empty, and calling it invokes the stale call entry instead
of throwing. -/
theorem C5_ctor_from_empty_keeps_stale_entries :
    AllNull ((emptyWorld.set 0 staleObj).objs 1) ∧
    (ctor_copy plainEnv (emptyWorld.set 0 staleObj) 0 1).objs 0 = staleObj ∧
    operator_bool (ctor_copy plainEnv (emptyWorld.set 0 staleObj) 0 1) 0 = true ∧
    (operator_call plainEnv (ctor_copy plainEnv (emptyWorld.set 0 staleObj) 0 1) 0 5).1 =
      Except.ok 5 ∧
    (ctor_move plainEnv (emptyWorld.set 0 staleObj) 0 1).objs 0 = staleObj ∧
    operator_bool (ctor_move plainEnv (emptyWorld.set 0 staleObj) 0 1) 0 = true ∧
    (operator_call plainEnv (ctor_move plainEnv (emptyWorld.set 0 staleObj) 0 1) 0 5).1 =
      Except.ok 5 := by
  refine ⟨⟨rfl, rfl, rfl, rfl⟩, rfl, rfl, rfl, rfl, rfl, rfl⟩

/-- C6: for a source `src` with all four entries null and a destination `dst` at
another address that is empty or populated, copy assignment and move assignment
leave `dst` with all four entries null and `src` as it was (empty), and the only steps made
are one invocation of the destroy entry on the callable `dst` held, if it held one. -/
theorem C6_assign_from_empty (env : FunctorEnv Obj Args Ret) (w : World Obj Args)
    (dst src : Addr) (hne : dst ≠ src) (hsrc : AllNull (w.objs src))
    (hdst : Consistent (w.objs dst)) :
    (AllNull ((assign_copy env w dst src).objs dst) ∧
      operator_bool (assign_copy env w dst src) dst = false ∧
      (assign_copy env w dst src).objs src = w.objs src ∧
      AllNull ((assign_copy env w dst src).objs src) ∧
      (assign_copy env w dst src).trace =
        w.trace ++ (match (w.objs dst).call_ with
          | some F => [Event.destroy F dst]
          | none => [])) ∧
    (AllNull ((assign_move env w dst src).objs dst) ∧
      operator_bool (assign_move env w dst src) dst = false ∧
      (assign_move env w dst src).objs src = w.objs src ∧
      AllNull ((assign_move env w dst src).objs src) ∧
      (assign_move env w dst src).trace =
        w.trace ++ (match (w.objs dst).call_ with
          | some F => [Event.destroy F dst]
          | none => [])) := by
  have hs : (reset w dst).objs src = w.objs src := reset_objs_of_ne w dst src (Ne.symm hne)
  have hc : copy env (reset w dst) dst src = reset w dst :=
    copy_of_none env _ dst src (by rw [hs]; exact hsrc.2.2.1)
  have hm : move env (reset w dst) dst src = reset w dst :=
    move_of_none env _ dst src (by rw [hs]; exact hsrc.2.2.2)
  have hn : AllNull ((reset w dst).objs dst) := reset_allNull w dst hdst
  have hb : operator_bool (reset w dst) dst = false := by simp [operator_bool, hn.1]
  have ht : (reset w dst).trace =
      w.trace ++ (match (w.objs dst).call_ with
        | some F => [Event.destroy F dst]
        | none => []) := by
    rw [reset_trace]
    rcases hdst with h | ⟨F, hF⟩
    · rw [h.1, h.2.1]
    · rw [hF.1, hF.2.1]
  unfold assign_copy assign_move
  rw [hc, hm]
  have hs2 : AllNull ((reset w dst).objs src) := by rw [hs]; exact hsrc
  exact ⟨⟨hn, hb, hs, hs2, ht⟩, ⟨hn, hb, hs, hs2, ht⟩⟩

/-- C6 at a concrete input: the empty wrapper at address `1` is assigned to the
wrapper at address `0`, which holds a functor of type `2`. -/
theorem C6_assign_from_empty_witness :
    AllNull ((assign_copy plainEnv (emptyWorld.set 0 (heldObj 2 9)) 0 1).objs 0) ∧
    (assign_copy plainEnv (emptyWorld.set 0 (heldObj 2 9)) 0 1).trace = [Event.destroy 2 0] ∧
    AllNull ((assign_move plainEnv (emptyWorld.set 0 (heldObj 2 9)) 0 1).objs 0) ∧
    (assign_move plainEnv (emptyWorld.set 0 (heldObj 2 9)) 0 1).trace = [Event.destroy 2 0] :=
  have h := C6_assign_from_empty plainEnv (emptyWorld.set 0 (heldObj 2 9)) 0 1 (by decide)
    ⟨rfl, rfl, rfl, rfl⟩ (Or.inr ⟨2, rfl, rfl, rfl, rfl⟩)
  ⟨h.1.1, h.1.2.2.2.2, h.2.1, h.2.2.2.2.2⟩

/-- C7: in every memory and for every two wrappers `a` and `b`, swapping them twice,
by the member `swap` or by the friend `swap`, gives back the memory and the trace
there were: both have their original entries and storage. -/
theorem C7_swap_twice (w : World Obj Args) (a b : Addr) :
    swap (swap w a b) a b = w ∧ friend_swap (friend_swap w a b) a b = w := by
  have h : swap (swap w a b) a b = w := by
    have ho : (swap (swap w a b) a b).objs = w.objs := by
      rw [swap_objs (swap w a b) a b, swap_objs_left, swap_objs_right]
      funext x
      by_cases hxb : x = b
      · subst hxb; simp
      · by_cases hxa : x = a
        · subst hxa; simp [Function.update, hxb]
        · simp [Function.update, hxb, hxa, swap_objs]
    have ht : (swap (swap w a b) a b).trace = w.trace := by
      rw [swap_trace, swap_trace]
    cases hw : swap (swap w a b) a b with
    | mk o t =>
      rw [hw] at ho ht
      cases w
      simp only at ho ht
      rw [ho, ht]
  exact ⟨h, h⟩

/-- C9: `operator=(nullptr)` and `reset()` give the same world; from a state that
satisfies the table invariant, afterwards all four entries are null, the wrapper
compares equal to `nullptr` in both argument orders, and the only step made is one
invocation of the destroy entry on the held callable, if one was held. -/
theorem C9_reset_eq_assign_nullptr (w : World Obj Args) (self : Addr)
    (h : Consistent (w.objs self)) :
    assign_nullptr w self = reset w self ∧
    AllNull ((reset w self).objs self) ∧
    AllNull ((assign_nullptr w self).objs self) ∧
    operator_bool (reset w self) self = false ∧
    operator_eq_nullptr_right (reset w self) self = true ∧
    operator_eq_nullptr_left (reset w self) self = true ∧
    operator_eq_nullptr_right (assign_nullptr w self) self = true ∧
    operator_eq_nullptr_left (assign_nullptr w self) self = true ∧
    (reset w self).trace =
      w.trace ++ (match (w.objs self).call_ with
        | some F => [Event.destroy F self]
        | none => []) ∧
    (assign_nullptr w self).trace =
      w.trace ++ (match (w.objs self).call_ with
        | some F => [Event.destroy F self]
        | none => []) := by
  have hn : AllNull ((reset w self).objs self) := reset_allNull w self h
  have hb : operator_bool (reset w self) self = false := by simp [operator_bool, hn.1]
  have he : operator_eq_nullptr_right (reset w self) self = true := by
    simp [operator_eq_nullptr_right, hb]
  have ht : (reset w self).trace =
      w.trace ++ (match (w.objs self).call_ with
        | some F => [Event.destroy F self]
        | none => []) := by
    rw [reset_trace]
    rcases h with h | ⟨F, hF⟩
    · rw [h.1, h.2.1]
    · rw [hF.1, hF.2.1]
  exact ⟨rfl, hn, hn, hb, he, he, he, he, ht, ht⟩

/-- C9 at a concrete input: the wrapper at address `0` holds a functor of type `2`. -/
theorem C9_reset_eq_assign_nullptr_witness :
    assign_nullptr (emptyWorld.set 0 (heldObj 2 9)) 0 = reset (emptyWorld.set 0 (heldObj 2 9)) 0 ∧
    AllNull ((reset (emptyWorld.set 0 (heldObj 2 9)) 0).objs 0) ∧
    (reset (emptyWorld.set 0 (heldObj 2 9)) 0).trace = [Event.destroy 2 0] :=
  have h := C9_reset_eq_assign_nullptr (emptyWorld.set 0 (heldObj 2 9)) 0
    (Or.inr ⟨2, rfl, rfl, rfl, rfl⟩)
  ⟨h.1, h.2.1, h.2.2.2.2.2.2.2.2.1⟩

/-- C10, the code at the failing inputs `nullptr != f` and `f != nullptr`, for an
empty wrapper and for a populated one: the body `return f;` of both `operator!=`
overloads copy-initialises a `bool` from the wrapper, which the `explicit` conversion
function does not allow, so neither overload has a value. The `operator==` overloads,
whose body is `return !f;`, are `true` for the empty wrapper and `false` for the
populated one. -/
theorem C10_ne_nullptr_ill_formed :
    operator_ne_nullptr_left emptyWorld 0 = none ∧
    operator_ne_nullptr_right emptyWorld 0 = none ∧
    operator_ne_nullptr_left (emptyWorld.set 0 (heldObj 2 9)) 0 = none ∧
    operator_ne_nullptr_right (emptyWorld.set 0 (heldObj 2 9)) 0 = none ∧
    operator_eq_nullptr_left emptyWorld 0 = true ∧
    operator_eq_nullptr_right emptyWorld 0 = true ∧
    operator_eq_nullptr_left (emptyWorld.set 0 (heldObj 2 9)) 0 = false ∧
    operator_eq_nullptr_right (emptyWorld.set 0 (heldObj 2 9)) 0 = false := by
  decide

end Claims2

/-! ## Further characterisation: calls, self-assignment, invariants -/

section Lemmas2
variable {Obj Args Ret : Type}

theorem operator_call_objs_self (env : FunctorEnv Obj Args Ret) (w : World Obj Args)
    (self : Addr) (args : Args) :
    (operator_call env w self args).2.objs self =
      (match (w.objs self).call_ with
        | some F => { w.objs self with
            storage_ := (call_impl env F (w.objs self).storage_ args).2 }
        | none => w.objs self) := by
  unfold operator_call
  cases (w.objs self).call_ <;>
    simp [World.set, World.emit, World.setStorage]

theorem operator_call_objs_of_ne (env : FunctorEnv Obj Args Ret) (w : World Obj Args)
    (self x : Addr) (args : Args) (hx : x ≠ self) :
    (operator_call env w self args).2.objs x = w.objs x := by
  unfold operator_call
  cases (w.objs self).call_ <;>
    simp [World.set, World.emit, World.setStorage, Function.update, hx]

theorem operator_call_trace (env : FunctorEnv Obj Args Ret) (w : World Obj Args)
    (self : Addr) (args : Args) :
    (operator_call env w self args).2.trace =
      w.trace ++ (match (w.objs self).call_ with
        | some F => [Event.call F self args]
        | none => []) := by
  unfold operator_call
  cases (w.objs self).call_ <;>
    simp [World.set, World.emit, World.setStorage]

theorem reset_allNull_of (w : World Obj Args) (self : Addr)
    (h : (w.objs self).destroy_ = none → AllNull (w.objs self)) :
    AllNull ((reset w self).objs self) := by
  cases hd : (w.objs self).destroy_ with
  | none => rw [reset_of_none w self hd]; exact h hd
  | some F => rw [reset_objs_self w self F hd]; exact ⟨rfl, rfl, rfl, rfl⟩

theorem nullOrSet_none (o : fixed_size_function Obj) (h : NullOrSet o)
    (hd : o.destroy_ = none) : AllNull o := by
  rcases h with h | h
  · exact h
  · exact absurd hd h.2.1

theorem tableInvariant_none (o : fixed_size_function Obj) (h : TableInvariant o)
    (hd : o.destroy_ = none) : AllNull o := by
  rcases h with h | ⟨F, hF, -⟩
  · exact h
  · rw [hF.2.1] at hd; cases hd

theorem tableInvariant_consistent (o : fixed_size_function Obj) (h : TableInvariant o) :
    Consistent o := by
  rcases h with h | ⟨F, hF, -⟩
  · exact Or.inl h
  · exact Or.inr ⟨F, hF⟩

theorem tableInvariant_nullOrSet (o : fixed_size_function Obj) (h : TableInvariant o) :
    NullOrSet o := by
  rcases h with h | ⟨F, hF, -⟩
  · exact Or.inl h
  · refine Or.inr ⟨?_, ?_, ?_, ?_⟩
    · rw [hF.1]; simp
    · rw [hF.2.1]; simp
    · rw [hF.2.2.1]; simp
    · rw [hF.2.2.2]; simp

theorem reset_idem (w : World Obj Args) (self : Addr) :
    reset (reset w self) self = reset w self := by
  cases hd : (w.objs self).destroy_ with
  | none => rw [reset_of_none w self hd, reset_of_none w self hd]
  | some F =>
    apply reset_of_none
    rw [reset_objs_self w self F hd]

theorem assign_copy_self_of_some (env : FunctorEnv Obj Args Ret) (w : World Obj Args)
    (self : Addr) (F : FunctorType) (hd : (w.objs self).destroy_ = some F) :
    assign_copy env w self self = reset w self := by
  unfold assign_copy
  apply copy_of_none
  rw [reset_objs_self w self F hd]

theorem assign_move_self_of_some (env : FunctorEnv Obj Args Ret) (w : World Obj Args)
    (self : Addr) (F : FunctorType) (hd : (w.objs self).destroy_ = some F) :
    assign_move env w self self = reset w self := by
  unfold assign_move
  apply move_of_none
  rw [reset_objs_self w self F hd]

theorem assign_copy_objs_of_ne (env : FunctorEnv Obj Args Ret) (w : World Obj Args)
    (self src x : Addr) (hx : x ≠ self) : (assign_copy env w self src).objs x = w.objs x := by
  unfold assign_copy
  rw [copy_objs_of_ne env _ self src x hx, reset_objs_of_ne w self x hx]

theorem assign_move_objs_of_ne (env : FunctorEnv Obj Args Ret) (w : World Obj Args)
    (self src x : Addr) (hx : x ≠ self) (hs : x ≠ src) :
    (assign_move env w self src).objs x = w.objs x := by
  unfold assign_move
  rw [move_objs_of_ne env _ self src x hx hs, reset_objs_of_ne w self x hx]

theorem holdsAfterOps_of (P : fixed_size_function Obj → Prop) (MaxSize : Nat)
    (env : FunctorEnv Obj Args Ret) (w : World Obj Args) (a b : Addr) (G : FunctorType)
    (g : Obj) (byMove : Bool) (args : Args)
    (hsize : env.sizeOf G ≤ MaxSize)
    (pnull : ∀ o, AllNull o → P o)
    (pnone : ∀ o, P o → o.destroy_ = none → AllNull o)
    (pcopy : ∀ o F, P o → o.copy_ = some F →
      P { o with storage_ := copy_impl env F o.storage_ })
    (pmove : ∀ o F, P o → o.move_ = some F →
      P { o with storage_ := (move_impl env F o.storage_).1 })
    (pcall : ∀ o F, P o → o.call_ = some F →
      P { o with storage_ := (call_impl env F o.storage_ args).2 })
    (pcreate : ∀ x : Obj, P
      { call_ := some G, destroy_ := some G, copy_ := some G, move_ := some G,
        storage_ := { bytes := x, live := some G } })
    (ha : P (w.objs a)) (hb : P (w.objs b)) :
    HoldsAfterOps P MaxSize env w a b G g byMove args := by
  have hr : AllNull ((reset w a).objs a) := reset_allNull_of w a (pnone _ ha)
  have hrb : P ((reset w a).objs b) := by
    by_cases hab : b = a
    · subst hab; exact pnull _ hr
    · rw [reset_objs_of_ne w a b hab]; exact hb
  refine ⟨pnull _ hr, pnull _ hr, ?_, ?_, ?_, ?_, ?_, ?_, ?_, ?_⟩
  · obtain ⟨w1, hw1, hobj, -, -⟩ := create_eq MaxSize env (reset w a) a G g byMove hsize
    exact ⟨w1, hw1, by rw [hobj]; exact pcreate _⟩
  · -- copy assignment, destination
    unfold assign_copy
    cases hc : ((reset w a).objs b).copy_ with
    | none => rw [copy_of_none env _ a b hc]; exact pnull _ hr
    | some F =>
      have hab : a ≠ b := by
        intro e; subst e; rw [hr.2.2.1] at hc; cases hc
      rw [copy_objs_self env _ a b F hab hc]
      exact pcopy _ F hrb hc
  · -- copy assignment, source
    unfold assign_copy
    by_cases hab : b = a
    · subst hab
      rw [copy_of_none env _ b b hr.2.2.1]; exact pnull _ hr
    · rw [copy_objs_of_ne env _ a b b hab]; exact hrb
  · -- move assignment, destination
    unfold assign_move
    cases hc : ((reset w a).objs b).move_ with
    | none => rw [move_of_none env _ a b hc]; exact pnull _ hr
    | some F =>
      have hab : a ≠ b := by
        intro e; subst e; rw [hr.2.2.2] at hc; cases hc
      rw [move_objs_self env _ a b F hab hc]
      exact pmove _ F hrb hc
  · -- move assignment, source
    unfold assign_move
    cases hc : ((reset w a).objs b).move_ with
    | none => rw [move_of_none env _ a b hc]; exact hrb
    | some F =>
      have hab : a ≠ b := by
        intro e; subst e; rw [hr.2.2.2] at hc; cases hc
      rw [move_objs_src env _ a b F hab hc]
      exact pnull _ ⟨rfl, rfl, rfl, rfl⟩
  · rw [swap_objs_left]; exact hb
  · rw [swap_objs_right]; exact ha
  · rw [operator_call_objs_self]
    cases hc : (w.objs a).call_ with
    | none => exact ha
    | some F => exact pcall _ F ha hc

end Lemmas2

section Claims3
variable {Obj Args Ret : Type}

/-- C11, as stated, fails: the wrapper at address `0` has four non-null entries but
no callable alive in its storage (what a copy constructor from an empty source can
leave behind), the wrapper at address `1` has four null entries; both satisfy the
hypothesis. After `swap` the wrapper at address `1` has four non-null entries and
still no callable alive in its storage, so its entries are not bound to the type of
a held callable. -/
theorem C11_counterexample :
    NullOrSet ((emptyWorld.set 0 staleObj).objs 0) ∧
    NullOrSet ((emptyWorld.set 0 staleObj).objs 1) ∧
    AllSet ((swap (emptyWorld.set 0 staleObj) 0 1).objs 1) ∧
    ((swap (emptyWorld.set 0 staleObj) 0 1).objs 1).storage_.live = none ∧
    ¬ TableInvariant ((swap (emptyWorld.set 0 staleObj) 0 1).objs 1) := by
  decide

/-- C11, amended: if the four entries of a wrapper `a` (and of the other wrapper `b`)
are all null or all non-null, then after `reset`, assignment from `nullptr`,
assignment from a callable that fits, copy assignment, move assignment (destination
and source), `swap` (both operands) and `operator()` they are again all null or all
non-null; and if the entries are all null or all bound to the type of the callable
alive in the storage, then after each of these operations they are again all null or
all bound to the type of the callable alive in the storage. The wrappers `a` and `b`
may be the same object. -/
theorem C11_table_invariant (MaxSize : Nat) (env : FunctorEnv Obj Args Ret)
    (w : World Obj Args) (a b : Addr) (G : FunctorType) (g : Obj) (byMove : Bool)
    (args : Args) (hsize : env.sizeOf G ≤ MaxSize) :
    (NullOrSet (w.objs a) → NullOrSet (w.objs b) →
      HoldsAfterOps NullOrSet MaxSize env w a b G g byMove args) ∧
    (TableInvariant (w.objs a) → TableInvariant (w.objs b) →
      HoldsAfterOps TableInvariant MaxSize env w a b G g byMove args) := by
  constructor
  · intro ha hb
    refine holdsAfterOps_of NullOrSet MaxSize env w a b G g byMove args hsize
      (fun o h => Or.inl h) nullOrSet_none (fun o F h _ => h) (fun o F h _ => h)
      (fun o F h _ => h) (fun x => Or.inr ?_) ha hb
    simp [AllSet]
  · intro ha hb
    refine holdsAfterOps_of TableInvariant MaxSize env w a b G g byMove args hsize
      (fun o h => Or.inl h) tableInvariant_none ?_ ?_ ?_
      (fun x => Or.inr ⟨G, ⟨rfl, rfl, rfl, rfl⟩, rfl⟩) ha hb
    · rintro o F (h | ⟨F1, hF, -⟩) hc
      · rw [h.2.2.1] at hc; cases hc
      · have e : F1 = F := by rw [hF.2.2.1] at hc; exact Option.some.inj hc
        subst e
        exact Or.inr ⟨F1, hF, rfl⟩
    · rintro o F (h | ⟨F1, hF, -⟩) hc
      · rw [h.2.2.2] at hc; cases hc
      · have e : F1 = F := by rw [hF.2.2.2] at hc; exact Option.some.inj hc
        subst e
        exact Or.inr ⟨F1, hF, rfl⟩
    · rintro o F (h | ⟨F1, hF, hl⟩) hc
      · rw [h.1] at hc; cases hc
      · exact Or.inr ⟨F1, hF, hl⟩

/-- C11, amended, at a concrete input: the wrapper at address `0` holds a functor of
type `2`, the wrapper at address `1` is empty, and a callable of type `0` is
assigned. -/
theorem C11_table_invariant_witness :
    plainEnv.sizeOf 0 ≤ 256 ∧
    TableInvariant ((emptyWorld.set 0 (heldObj 2 9)).objs 0) ∧
    TableInvariant ((emptyWorld.set 0 (heldObj 2 9)).objs 1) ∧
    HoldsAfterOps NullOrSet 256 plainEnv (emptyWorld.set 0 (heldObj 2 9)) 0 1 0 3 false 5 ∧
    HoldsAfterOps TableInvariant 256 plainEnv (emptyWorld.set 0 (heldObj 2 9)) 0 1 0 3 false 5 :=
  have h := C11_table_invariant 256 plainEnv (emptyWorld.set 0 (heldObj 2 9)) 0 1 0 3 false 5
    (by decide)
  ⟨by decide, by decide, by decide, h.1 (by decide) (by decide), h.2 (by decide) (by decide)⟩

/-- C12: construction and assignment from a callable of type `F` give a result if
and only if `sizeof(F) <= MaxSize`; a type of size exactly `MaxSize` is accepted; for
a larger type there is no resulting world at all, so nothing is stored anywhere. -/
theorem C12_size_gate (MaxSize : Nat) (env : FunctorEnv Obj Args Ret) (w : World Obj Args)
    (self : Addr) (F : FunctorType) (f : Obj) (byMove : Bool) :
    ((ctor_functor MaxSize env w self F f byMove).isSome = true ↔ env.sizeOf F ≤ MaxSize) ∧
    ((assign_functor MaxSize env w self F f byMove).isSome = true ↔ env.sizeOf F ≤ MaxSize) ∧
    (env.sizeOf F = MaxSize →
      (ctor_functor MaxSize env w self F f byMove).isSome = true ∧
      (assign_functor MaxSize env w self F f byMove).isSome = true) ∧
    (MaxSize < env.sizeOf F →
      ctor_functor MaxSize env w self F f byMove = none ∧
      assign_functor MaxSize env w self F f byMove = none) := by
  have key : ∀ v : World Obj Args,
      ((create MaxSize env v self F f byMove).isSome = true ↔ env.sizeOf F ≤ MaxSize) := by
    intro v
    unfold create
    by_cases h : env.sizeOf F ≤ MaxSize <;> simp [h]
  refine ⟨key w, key (reset w self), ?_, ?_⟩
  · intro h
    exact ⟨(key w).2 (le_of_eq h), (key (reset w self)).2 (le_of_eq h)⟩
  · intro h
    have hn : ¬ env.sizeOf F ≤ MaxSize := Nat.not_le.mpr h
    constructor
    · simp [ctor_functor, create, hn]
    · simp [assign_functor, create, hn]

/-- C12 at concrete inputs: a functor type of 8 bytes is accepted for `MaxSize = 8`
and rejected for `MaxSize = 7`. -/
theorem C12_size_gate_witness :
    (ctor_functor 8 plainEnv emptyWorld 0 0 3 false).isSome = true ∧
    (assign_functor 8 plainEnv emptyWorld 0 0 3 false).isSome = true ∧
    ctor_functor 7 plainEnv emptyWorld 0 0 3 false = none ∧
    assign_functor 7 plainEnv emptyWorld 0 0 3 false = none :=
  ⟨((C12_size_gate 8 plainEnv emptyWorld 0 0 3 false).2.2.1 rfl).1,
   ((C12_size_gate 8 plainEnv emptyWorld 0 0 3 false).2.2.1 rfl).2,
   ((C12_size_gate 7 plainEnv emptyWorld 0 0 3 false).2.2.2 (by decide)).1,
   ((C12_size_gate 7 plainEnv emptyWorld 0 0 3 false).2.2.2 (by decide)).2⟩

/-- C13, as stated, fails: with a functor type whose copy constructor changes what
the call returns, after assigning `A` (bytes `9`), `reset()` and assigning `B` (bytes
`0`) the wrapper returns `6` on the argument `5`, while `B(5)` is `5`. -/
theorem C13_counterexample :
    countingEnv.sizeOf 0 ≤ 256 ∧
    ((assign_functor 256 countingEnv emptyWorld 0 0 9 false).bind
      (fun wA => assign_functor 256 countingEnv (reset wA 0) 0 0 0 false)).map
        (fun wB => (operator_call countingEnv wB 0 5).1) = some (Except.ok 6) ∧
    (countingEnv.invoke 0 0 5).1 = 5 := by
  refine ⟨by decide, rfl, rfl⟩

/-- C13, amended: for every state of the wrapper and callables `a` of type `A` and
`b` of type `B` that fit, assigning `a`, then `reset()`, then assigning `b` leaves the
wrapper object equal to the one obtained by assigning `b` to a default-constructed
wrapper: entries bound to `B`, storage holding the constructed `B`, and, when the
constructor of `B` that is used preserves the result of a call, calls returning
`b(args)`. Assigning `b` to a wrapper populated for a type `F` makes exactly two
steps, one invocation of the destroy entry of `F` and the construction of the `B`,
and leaves all four entries bound to `B`. -/
theorem C13_reassign_after_reset (MaxSize : Nat) (env : FunctorEnv Obj Args Ret)
    (w : World Obj Args) (self : Addr) (A B : FunctorType) (a b : Obj)
    (byMoveA byMoveB : Bool) (args : Args)
    (hA : env.sizeOf A ≤ MaxSize) (hB : env.sizeOf B ≤ MaxSize)
    (hcopy : byMoveB = false →
      ∀ o x, (env.invoke B (env.copyCtor B o) x).1 = (env.invoke B o x).1)
    (hmove : byMoveB = true →
      ∀ o x, (env.invoke B (env.moveCtor B o).1 x).1 = (env.invoke B o x).1) :
    (∃ wA wB wD,
      assign_functor MaxSize env w self A a byMoveA = some wA ∧
      assign_functor MaxSize env (reset wA self) self B b byMoveB = some wB ∧
      assign_functor MaxSize env (ctor_default w self) self B b byMoveB = some wD ∧
      wB.objs self = wD.objs self ∧
      BoundTo B (wB.objs self) ∧
      (wB.objs self).storage_.live = some B ∧
      (operator_call env wB self args).1 = Except.ok (env.invoke B b args).1 ∧
      (operator_call env wD self args).1 = Except.ok (env.invoke B b args).1) ∧
    (∀ F, BoundTo F (w.objs self) →
      ∃ w1, assign_functor MaxSize env w self B b byMoveB = some w1 ∧
        w1.trace = w.trace ++ [Event.destroy F self, Event.construct B self] ∧
        BoundTo B (w1.objs self)) := by
  have hcall : ∀ w1 : World Obj Args,
      w1.objs self =
        { call_ := some B, destroy_ := some B, copy_ := some B, move_ := some B,
          storage_ := { bytes := if byMoveB then (env.moveCtor B b).1 else env.copyCtor B b,
                        live := some B } } →
      (operator_call env w1 self args).1 = Except.ok (env.invoke B b args).1 := by
    intro w1 h1
    rw [operator_call_of_some env w1 self args B (by rw [h1]), h1]
    cases byMoveB
    · simp [hcopy rfl]
    · simp [hmove rfl]
  constructor
  · obtain ⟨wA, hwA, -, -, -⟩ := create_eq MaxSize env (reset w self) self A a byMoveA hA
    obtain ⟨wB, hwB, hoB, -, -⟩ :=
      create_eq MaxSize env (reset (reset wA self) self) self B b byMoveB hB
    obtain ⟨wD, hwD, hoD, -, -⟩ :=
      create_eq MaxSize env (reset (ctor_default w self) self) self B b byMoveB hB
    refine ⟨wA, wB, wD, hwA, hwB, hwD, by rw [hoB, hoD], ?_, ?_, hcall wB hoB, hcall wD hoD⟩
    · rw [hoB]; exact ⟨rfl, rfl, rfl, rfl⟩
    · rw [hoB]
  · intro F hF
    obtain ⟨w1, hw1, ho1, -, ht1⟩ :=
      create_eq MaxSize env (reset w self) self B b byMoveB hB
    refine ⟨w1, hw1, ?_, ?_⟩
    · rw [ht1, reset_trace, hF.2.1]; simp
    · rw [ho1]; exact ⟨rfl, rfl, rfl, rfl⟩

/-- C13, amended, at a concrete input: the wrapper at address `0` holds a functor of
type `2`; a callable of type `1` and then one of type `0` with bytes `3` are
assigned. -/
theorem C13_reassign_after_reset_witness :
    (∃ wA wB wD,
      assign_functor 256 plainEnv (emptyWorld.set 0 (heldObj 2 9)) 0 1 4 false = some wA ∧
      assign_functor 256 plainEnv (reset wA 0) 0 0 3 false = some wB ∧
      assign_functor 256 plainEnv (ctor_default (emptyWorld.set 0 (heldObj 2 9)) 0) 0 0 3 false =
        some wD ∧
      wB.objs 0 = wD.objs 0 ∧
      BoundTo 0 (wB.objs 0) ∧
      (wB.objs 0).storage_.live = some 0 ∧
      (operator_call plainEnv wB 0 5).1 = Except.ok (plainEnv.invoke 0 3 5).1 ∧
      (operator_call plainEnv wD 0 5).1 = Except.ok (plainEnv.invoke 0 3 5).1) ∧
    (∃ w1, assign_functor 256 plainEnv (emptyWorld.set 0 (heldObj 2 9)) 0 0 3 false = some w1 ∧
      w1.trace = (emptyWorld.set 0 (heldObj 2 9)).trace ++
        [Event.destroy 2 0, Event.construct 0 0] ∧
      BoundTo 0 (w1.objs 0)) :=
  have h := C13_reassign_after_reset 256 plainEnv (emptyWorld.set 0 (heldObj 2 9)) 0 1 0 4 3
    false false 5 (by decide) (by decide) (fun _ _ _ => rfl) (fun h => absurd h (by decide))
  ⟨h.1, h.2 2 ⟨rfl, rfl, rfl, rfl⟩⟩

end Claims3

section Claims4
variable {Obj Args Ret : Type}

/-- C14: after a populated wrapper `src` has been copied into `dst` at another
address, by the copy constructor or by copy assignment, both are populated, and for
`x` one of the two and `y` the other: resetting `x`, assigning `nullptr` or a callable
to `x`, moving from `x` into a third wrapper `z`, or calling `x` leaves the object
`y` (its four entries, its storage and the callable in it) as it was, so that a call
of `y` afterwards returns what it would have returned. Objects of the functor types
are values here: a copy shares nothing with its source. -/
theorem C14_copies_independent (MaxSize : Nat) (env : FunctorEnv Obj Args Ret)
    (w : World Obj Args) (dst src z : Addr) (F G : FunctorType) (g : Obj) (byMove : Bool)
    (args args2 : Args)
    (hne : dst ≠ src) (hsrc : BoundTo F (w.objs src)) (hzd : z ≠ dst) (hzs : z ≠ src)
    (hsize : env.sizeOf G ≤ MaxSize) :
    ∀ w1, (w1 = ctor_copy env w dst src ∨ w1 = assign_copy env w dst src) →
      ∀ x y, ((x = dst ∧ y = src) ∨ (x = src ∧ y = dst)) →
        BoundTo F (w1.objs y) ∧
        (reset w1 x).objs y = w1.objs y ∧
        (assign_nullptr w1 x).objs y = w1.objs y ∧
        (∃ w2, assign_functor MaxSize env w1 x G g byMove = some w2 ∧
          w2.objs y = w1.objs y ∧
          (operator_call env w2 y args2).1 = (operator_call env w1 y args2).1) ∧
        (ctor_move env w1 z x).objs y = w1.objs y ∧
        (assign_move env w1 z x).objs y = w1.objs y ∧
        (operator_call env w1 x args).2.objs y = w1.objs y ∧
        (operator_call env (operator_call env w1 x args).2 y args2).1 =
          (operator_call env w1 y args2).1 := by
  intro w1 hw1 x y hxy
  have hsd : src ≠ dst := Ne.symm hne
  have hyx : y ≠ x := by
    rcases hxy with ⟨hx, hy⟩ | ⟨hx, hy⟩
    · rw [hx, hy]; exact hsd
    · rw [hx, hy]; exact hne
  have hyz : y ≠ z := by
    rcases hxy with ⟨-, hy⟩ | ⟨-, hy⟩
    · rw [hy]; exact Ne.symm hzs
    · rw [hy]; exact Ne.symm hzd
  have hbound : BoundTo F (w1.objs src) ∧ BoundTo F (w1.objs dst) := by
    have hc : ∀ v : World Obj Args, v.objs src = w.objs src →
        BoundTo F ((copy env v dst src).objs src) ∧ BoundTo F ((copy env v dst src).objs dst) := by
      intro v hv
      constructor
      · rw [copy_objs_of_ne env v dst src src hsd, hv]; exact hsrc
      · rw [copy_objs_self env v dst src F hne (by rw [hv]; exact hsrc.2.2.1), hv]
        exact hsrc
    rcases hw1 with h | h
    · rw [h]; exact hc w rfl
    · rw [h]; exact hc (reset w dst) (reset_objs_of_ne w dst src hsd)
  refine ⟨?_, reset_objs_of_ne w1 x y hyx, reset_objs_of_ne w1 x y hyx, ?_,
    move_objs_of_ne env w1 z x y hyz hyx, assign_move_objs_of_ne env w1 z x y hyz hyx,
    operator_call_objs_of_ne env w1 x y args hyx, ?_⟩
  · rcases hxy with ⟨-, hy⟩ | ⟨-, hy⟩
    · rw [hy]; exact hbound.1
    · rw [hy]; exact hbound.2
  · obtain ⟨w2, hw2, -, hfr, -⟩ := create_eq MaxSize env (reset w1 x) x G g byMove hsize
    have ho : w2.objs y = w1.objs y := by
      rw [hfr y hyx, reset_objs_of_ne w1 x y hyx]
    exact ⟨w2, hw2, ho, operator_call_congr env w2 w1 y y args2 ho⟩
  · exact operator_call_congr env _ w1 y y args2
      (operator_call_objs_of_ne env w1 x y args hyx)

/-- C14 at a concrete input: the wrapper at address `1`, holding a functor with
bytes `3`, is copy-assigned to the wrapper at address `0`; then the copy is reset,
reassigned, moved into the wrapper at address `2`, or called. -/
theorem C14_copies_independent_witness :
    BoundTo 0 ((assign_copy plainEnv (emptyWorld.set 1 (heldObj 0 3)) 0 1).objs 1) ∧
    (reset (assign_copy plainEnv (emptyWorld.set 1 (heldObj 0 3)) 0 1) 0).objs 1 =
      (assign_copy plainEnv (emptyWorld.set 1 (heldObj 0 3)) 0 1).objs 1 ∧
    (assign_move plainEnv (assign_copy plainEnv (emptyWorld.set 1 (heldObj 0 3)) 0 1) 2 0).objs 1 =
      (assign_copy plainEnv (emptyWorld.set 1 (heldObj 0 3)) 0 1).objs 1 ∧
    (operator_call plainEnv
      (operator_call plainEnv (assign_copy plainEnv (emptyWorld.set 1 (heldObj 0 3)) 0 1)
        0 5).2 1 6).1 =
      (operator_call plainEnv (assign_copy plainEnv (emptyWorld.set 1 (heldObj 0 3)) 0 1)
        1 6).1 :=
  have h := C14_copies_independent 256 plainEnv (emptyWorld.set 1 (heldObj 0 3)) 0 1 2 0 4 7
    false 5 6 (by decide) ⟨rfl, rfl, rfl, rfl⟩ (by decide) (by decide) (by decide)
    (assign_copy plainEnv (emptyWorld.set 1 (heldObj 0 3)) 0 1) (Or.inr rfl) 0 1
    (Or.inl ⟨rfl, rfl⟩)
  ⟨h.1, h.2.1, h.2.2.2.2.2.1, h.2.2.2.2.2.2.2⟩

/-- C15: in any state, copy-assigning a wrapper to itself and move-assigning it to
itself make at most one step: the invocation of the destroy entry if `destroy_` is
not null, and otherwise the invocation of the copy (move) entry if that one is not
null; so no entry is invoked on a callable destroyed before. From a state whose four
entries are all null or all non-null the wrapper ends with all four entries null,
which satisfies the table invariant. -/
theorem C15_self_assignment_safe (env : FunctorEnv Obj Args Ret) (w : World Obj Args)
    (self : Addr) :
    (∃ t, (assign_copy env w self self).trace = w.trace ++ t ∧
      noUseAfterDestroy [] t = true ∧
      t = (match (w.objs self).destroy_ with
        | some F => [Event.destroy F self]
        | none => (match (w.objs self).copy_ with
          | some F => [Event.copy F self self]
          | none => []))) ∧
    (∃ t, (assign_move env w self self).trace = w.trace ++ t ∧
      noUseAfterDestroy [] t = true ∧
      t = (match (w.objs self).destroy_ with
        | some F => [Event.destroy F self]
        | none => (match (w.objs self).move_ with
          | some F => [Event.move F self self]
          | none => []))) ∧
    (NullOrSet (w.objs self) →
      AllNull ((assign_copy env w self self).objs self) ∧
      TableInvariant ((assign_copy env w self self).objs self) ∧
      AllNull ((assign_move env w self self).objs self) ∧
      TableInvariant ((assign_move env w self self).objs self)) := by
  refine ⟨?_, ?_, ?_⟩
  · cases hd : (w.objs self).destroy_ with
    | some F =>
      refine ⟨[Event.destroy F self], ?_, rfl, rfl⟩
      rw [assign_copy_self_of_some env w self F hd, reset_trace, hd]
    | none =>
      have hr : assign_copy env w self self = copy env w self self := by
        unfold assign_copy; rw [reset_of_none w self hd]
      cases hc : (w.objs self).copy_ with
      | some F =>
        refine ⟨[Event.copy F self self], ?_, rfl, rfl⟩
        rw [hr, copy_trace, hc]
      | none =>
        refine ⟨[], ?_, rfl, rfl⟩
        rw [hr, copy_trace, hc]
  · cases hd : (w.objs self).destroy_ with
    | some F =>
      refine ⟨[Event.destroy F self], ?_, rfl, rfl⟩
      rw [assign_move_self_of_some env w self F hd, reset_trace, hd]
    | none =>
      have hr : assign_move env w self self = move env w self self := by
        unfold assign_move; rw [reset_of_none w self hd]
      cases hc : (w.objs self).move_ with
      | some F =>
        refine ⟨[Event.move F self self], ?_, rfl, rfl⟩
        rw [hr, move_trace, hc]
      | none =>
        refine ⟨[], ?_, rfl, rfl⟩
        rw [hr, move_trace, hc]
  · intro h
    have hr : AllNull ((reset w self).objs self) :=
      reset_allNull_of w self (nullOrSet_none _ h)
    have hc : assign_copy env w self self = reset w self := by
      unfold assign_copy; exact copy_of_none env _ self self hr.2.2.1
    have hm : assign_move env w self self = reset w self := by
      unfold assign_move; exact move_of_none env _ self self hr.2.2.2
    rw [hc, hm]
    exact ⟨hr, Or.inl hr, hr, Or.inl hr⟩

/-- C15 at a concrete input: the wrapper at address `0` holds a functor of type `2`. -/
theorem C15_self_assignment_safe_witness :
    AllNull ((assign_copy plainEnv (emptyWorld.set 0 (heldObj 2 9)) 0 0).objs 0) ∧
    TableInvariant ((assign_copy plainEnv (emptyWorld.set 0 (heldObj 2 9)) 0 0).objs 0) ∧
    AllNull ((assign_move plainEnv (emptyWorld.set 0 (heldObj 2 9)) 0 0).objs 0) ∧
    TableInvariant ((assign_move plainEnv (emptyWorld.set 0 (heldObj 2 9)) 0 0).objs 0) :=
  (C15_self_assignment_safe plainEnv (emptyWorld.set 0 (heldObj 2 9)) 0).2.2 (by decide)

/-- C16, the code at the failing input `function a(x); function b(std::move(a));`
followed by both destructors: two objects are constructed in place (by `create` in
`a`, by `move_impl` in `b`) and the destroy entry is invoked once, on the object in
`b`. `move` nulls the destroy entry of `a` without invoking it, so the destructor of
`a` does nothing and the moved-from object in the storage of `a` is never
destroyed. -/
theorem C16_moved_from_object_not_destroyed :
    moveThenDestroy.map (fun w => w.trace) =
      some [Event.construct 0 1, Event.move 0 1 0, Event.destroy 0 0] ∧
    moveThenDestroy.map (fun w => (constructions w.trace, destructions w.trace)) =
      some (2, 1) ∧
    moveThenDestroy.map (fun w => ((w.objs 1).storage_.live, (w.objs 0).storage_.live)) =
      some (some 0, none) := by
  decide

/-- C17: `reset()` on a wrapper populated for a type `F` makes one step, the
invocation of the destroy entry of `F`, and leaves all four entries null; on a
wrapper with four null entries it changes nothing; applied twice it gives what it
gives applied once, in every state; the destructor is `reset()`; and from a state
whose entries are all null or all non-null, the result agrees with a
default-constructed wrapper on `bool()`, on `== nullptr` in both orders, and on
`operator()`, which throws. -/
theorem C17_reset (env : FunctorEnv Obj Args Ret) (w v : World Obj Args)
    (self a : Addr) (args : Args) :
    (∀ F, BoundTo F (w.objs self) →
      (reset w self).trace = w.trace ++ [Event.destroy F self] ∧
      AllNull ((reset w self).objs self)) ∧
    (AllNull (w.objs self) → reset w self = w) ∧
    reset (reset w self) self = reset w self ∧
    dtor w self = reset w self ∧
    (NullOrSet (w.objs self) →
      AllNull ((reset w self).objs self) ∧
      operator_bool (reset w self) self = operator_bool (ctor_default v a) a ∧
      operator_eq_nullptr_right (reset w self) self =
        operator_eq_nullptr_right (ctor_default v a) a ∧
      operator_eq_nullptr_left (reset w self) self =
        operator_eq_nullptr_left (ctor_default v a) a ∧
      (operator_call env (reset w self) self args).1 =
        (operator_call env (ctor_default v a) a args).1 ∧
      (operator_call env (reset w self) self args).1 =
        Except.error Exception.bad_function_call) := by
  refine ⟨?_, ?_, reset_idem w self, rfl, ?_⟩
  · intro F hF
    constructor
    · rw [reset_trace, hF.2.1]
    · rw [reset_objs_self w self F hF.2.1]; exact ⟨rfl, rfl, rfl, rfl⟩
  · intro h
    exact reset_of_none w self h.2.1
  · intro h
    have hr : AllNull ((reset w self).objs self) :=
      reset_allNull_of w self (nullOrSet_none _ h)
    have hd : ((ctor_default v a).objs a).call_ = none := by
      simp [ctor_default, World.set, World.setCall, World.setDestroy, World.setCopy,
        World.setMove]
    refine ⟨hr, ?_, ?_, ?_, ?_, ?_⟩
    · simp [operator_bool, hr.1, hd]
    · simp [operator_eq_nullptr_right, operator_bool, hr.1, hd]
    · simp [operator_eq_nullptr_left, operator_bool, hr.1, hd]
    · simp [operator_call, hr.1, hd]
    · simp [operator_call, hr.1]

/-- C17 at a concrete input: the wrapper at address `0` holds a functor of type `2`. -/
theorem C17_reset_witness :
    (reset (emptyWorld.set 0 (heldObj 2 9)) 0).trace =
      (emptyWorld.set 0 (heldObj 2 9)).trace ++ [Event.destroy 2 0] ∧
    AllNull ((reset (emptyWorld.set 0 (heldObj 2 9)) 0).objs 0) ∧
    reset emptyWorld 0 = emptyWorld ∧
    (operator_call plainEnv (reset (emptyWorld.set 0 (heldObj 2 9)) 0) 0 5).1 =
      Except.error Exception.bad_function_call :=
  ⟨((C17_reset plainEnv (emptyWorld.set 0 (heldObj 2 9)) emptyWorld 0 1 5).1 2
      ⟨rfl, rfl, rfl, rfl⟩).1,
   ((C17_reset plainEnv (emptyWorld.set 0 (heldObj 2 9)) emptyWorld 0 1 5).1 2
      ⟨rfl, rfl, rfl, rfl⟩).2,
   (C17_reset plainEnv emptyWorld emptyWorld 0 1 5).2.1 ⟨rfl, rfl, rfl, rfl⟩,
   ((C17_reset plainEnv (emptyWorld.set 0 (heldObj 2 9)) emptyWorld 0 1 5).2.2.2.2
      (by decide)).2.2.2.2.2⟩

/-- C18, as stated, fails: a functor type declared with `alignas(64)`, of size 64
and alignment 64, above the alignment 16 of the storage cell, is accepted by the
template constructor and by the template assignment for `MaxSize = 256`. -/
theorem C18_counterexample :
    exampleStorageAlign < overalignedEnv.alignOf 0 ∧
    overalignedEnv.sizeOf 0 ≤ 256 ∧
    (ctor_functor 256 overalignedEnv emptyWorld 0 0 3 false).isSome = true ∧
    (assign_functor 256 overalignedEnv emptyWorld 0 0 3 false).isSome = true := by
  decide

/-- C18, amended: only the size is checked at construction. A callable type whose
alignment exceeds the alignment of the storage cell is not rejected by the template
constructor or by the template assignment when its size is at most `MaxSize`: both
give a wrapper with the four entries bound to the type and the callable constructed
in the storage cell. -/
theorem C18_alignment_not_checked (MaxSize : Nat) (env : FunctorEnv Obj Args Ret)
    (w : World Obj Args) (self : Addr) (F : FunctorType) (f : Obj) (byMove : Bool)
    (storageAlign : Nat) (hsize : env.sizeOf F ≤ MaxSize)
    (_halign : storageAlign < env.alignOf F) :
    (∃ w1, ctor_functor MaxSize env w self F f byMove = some w1 ∧
      BoundTo F (w1.objs self) ∧ (w1.objs self).storage_.live = some F) ∧
    (∃ w1, assign_functor MaxSize env w self F f byMove = some w1 ∧
      BoundTo F (w1.objs self) ∧ (w1.objs self).storage_.live = some F) := by
  have key : ∀ v : World Obj Args, ∃ w1, create MaxSize env v self F f byMove = some w1 ∧
      BoundTo F (w1.objs self) ∧ (w1.objs self).storage_.live = some F := by
    intro v
    obtain ⟨w1, hw1, hobj, -, -⟩ := create_eq MaxSize env v self F f byMove hsize
    refine ⟨w1, hw1, ?_, ?_⟩
    · rw [hobj]; exact ⟨rfl, rfl, rfl, rfl⟩
    · rw [hobj]
  exact ⟨key w, key (reset w self)⟩

/-- C18, amended, at a concrete input: the functor type of size 64 and alignment 64,
a storage cell of alignment 16 and `MaxSize = 256`. -/
theorem C18_alignment_not_checked_witness :
    overalignedEnv.sizeOf 0 ≤ 256 ∧
    exampleStorageAlign < overalignedEnv.alignOf 0 ∧
    (∃ w1, ctor_functor 256 overalignedEnv emptyWorld 0 0 3 false = some w1 ∧
      BoundTo 0 (w1.objs 0) ∧ (w1.objs 0).storage_.live = some 0) ∧
    (∃ w1, assign_functor 256 overalignedEnv emptyWorld 0 0 3 false = some w1 ∧
      BoundTo 0 (w1.objs 0) ∧ (w1.objs 0).storage_.live = some 0) :=
  have h := C18_alignment_not_checked 256 overalignedEnv emptyWorld 0 0 3 false
    exampleStorageAlign (by decide) (by decide)
  ⟨by decide, by decide, h.1, h.2⟩

/-- C19: for a wrapper populated for a type `F`, copy-assigning it to itself and
move-assigning it to itself make exactly one step, the invocation of the destroy
entry of `F` on it, and leave it empty with all four entries null: after the `reset`
in `assign` the copy and move entries that `copy` and `move` inspect are null. The
held callable is destroyed: no object is alive in the storage afterwards, and the
wrapper is exactly the one `destroy_impl<F>` and the nulling of the entries leave. -/
theorem C19_self_assignment_empties (env : FunctorEnv Obj Args Ret) (w : World Obj Args)
    (self : Addr) (F : FunctorType) (h : BoundTo F (w.objs self)) :
    ((reset w self).objs self).copy_ = none ∧
    ((reset w self).objs self).move_ = none ∧
    AllNull ((assign_copy env w self self).objs self) ∧
    operator_bool (assign_copy env w self self) self = false ∧
    (assign_copy env w self self).trace = w.trace ++ [Event.destroy F self] ∧
    AllNull ((assign_move env w self self).objs self) ∧
    operator_bool (assign_move env w self self) self = false ∧
    (assign_move env w self self).trace = w.trace ++ [Event.destroy F self] ∧
    ((assign_copy env w self self).objs self).storage_.live = none ∧
    ((assign_move env w self self).objs self).storage_.live = none ∧
    (assign_copy env w self self).objs self =
      { call_ := none, destroy_ := none, copy_ := none, move_ := none,
        storage_ := { bytes := (w.objs self).storage_.bytes, live := none } } ∧
    (assign_move env w self self).objs self =
      { call_ := none, destroy_ := none, copy_ := none, move_ := none,
        storage_ := { bytes := (w.objs self).storage_.bytes, live := none } } := by
  have ho : (reset w self).objs self =
      { call_ := none, destroy_ := none, copy_ := none, move_ := none,
        storage_ := { bytes := (w.objs self).storage_.bytes, live := none } } := by
    rw [reset_objs_self w self F h.2.1]; rfl
  have hr : AllNull ((reset w self).objs self) := by
    rw [ho]; exact ⟨rfl, rfl, rfl, rfl⟩
  have ht : (reset w self).trace = w.trace ++ [Event.destroy F self] := by
    rw [reset_trace, h.2.1]
  have hb : operator_bool (reset w self) self = false := by simp [operator_bool, hr.1]
  have hl : ((reset w self).objs self).storage_.live = none := by rw [ho]
  rw [assign_copy_self_of_some env w self F h.2.1, assign_move_self_of_some env w self F h.2.1]
  exact ⟨hr.2.2.1, hr.2.2.2, hr, hb, ht, hr, hb, ht, hl, hl, ho, ho⟩

/-- C19 at a concrete input: the wrapper at address `0` holds a functor of type `2`. -/
theorem C19_self_assignment_empties_witness :
    AllNull ((assign_copy plainEnv (emptyWorld.set 0 (heldObj 2 9)) 0 0).objs 0) ∧
    (assign_copy plainEnv (emptyWorld.set 0 (heldObj 2 9)) 0 0).trace = [Event.destroy 2 0] ∧
    AllNull ((assign_move plainEnv (emptyWorld.set 0 (heldObj 2 9)) 0 0).objs 0) ∧
    (assign_move plainEnv (emptyWorld.set 0 (heldObj 2 9)) 0 0).trace = [Event.destroy 2 0] ∧
    ((assign_copy plainEnv (emptyWorld.set 0 (heldObj 2 9)) 0 0).objs 0).storage_.live = none ∧
    ((assign_move plainEnv (emptyWorld.set 0 (heldObj 2 9)) 0 0).objs 0).storage_.live = none :=
  have h := C19_self_assignment_empties plainEnv (emptyWorld.set 0 (heldObj 2 9)) 0 2
    ⟨rfl, rfl, rfl, rfl⟩
  ⟨h.2.2.1, h.2.2.2.2.1, h.2.2.2.2.2.1, h.2.2.2.2.2.2.2.1, h.2.2.2.2.2.2.2.2.1,
   h.2.2.2.2.2.2.2.2.2.1⟩

/-- C20: in every state and for every argument list, `operator()` leaves the four
entries of the wrapper, and so `bool()` and `== nullptr`, as they were, changes no
other object, and keeps the lifetime of the held callable; when `call_` is null it
throws and changes nothing; when `call_` is the entry of a type `F` the one step made
is the invocation of that entry on the storage of the wrapper itself, the result is
what the callable returns, and only the bytes of the held callable may change. -/
theorem C20_call_keeps_table (env : FunctorEnv Obj Args Ret) (w : World Obj Args)
    (self : Addr) (args : Args) :
    ((operator_call env w self args).2.objs self).call_ = (w.objs self).call_ ∧
    ((operator_call env w self args).2.objs self).destroy_ = (w.objs self).destroy_ ∧
    ((operator_call env w self args).2.objs self).copy_ = (w.objs self).copy_ ∧
    ((operator_call env w self args).2.objs self).move_ = (w.objs self).move_ ∧
    ((operator_call env w self args).2.objs self).storage_.live =
      (w.objs self).storage_.live ∧
    operator_bool (operator_call env w self args).2 self = operator_bool w self ∧
    operator_eq_nullptr_left (operator_call env w self args).2 self =
      operator_eq_nullptr_left w self ∧
    operator_eq_nullptr_right (operator_call env w self args).2 self =
      operator_eq_nullptr_right w self ∧
    (∀ x, x ≠ self → (operator_call env w self args).2.objs x = w.objs x) ∧
    ((w.objs self).call_ = none →
      (operator_call env w self args).1 = Except.error Exception.bad_function_call ∧
      (operator_call env w self args).2 = w) ∧
    (∀ F, (w.objs self).call_ = some F →
      (operator_call env w self args).1 =
        Except.ok (env.invoke F (w.objs self).storage_.bytes args).1 ∧
      (operator_call env w self args).2.trace = w.trace ++ [Event.call F self args] ∧
      ((operator_call env w self args).2.objs self).storage_.bytes =
        (env.invoke F (w.objs self).storage_.bytes args).2) := by
  have ho := operator_call_objs_self env w self args
  have hcall : ((operator_call env w self args).2.objs self).call_ = (w.objs self).call_ := by
    rw [ho]; split <;> rfl
  refine ⟨hcall, ?_, ?_, ?_, ?_, ?_, ?_, ?_, ?_, ?_, ?_⟩
  · rw [ho]; split <;> rfl
  · rw [ho]; split <;> rfl
  · rw [ho]; split <;> rfl
  · rw [ho]; split <;> rfl
  · simp [operator_bool, hcall]
  · simp [operator_eq_nullptr_left, operator_bool, hcall]
  · simp [operator_eq_nullptr_right, operator_bool, hcall]
  · intro x hx
    exact operator_call_objs_of_ne env w self x args hx
  · intro h
    simp [operator_call, h]
  · intro F h
    refine ⟨operator_call_of_some env w self args F h, ?_, ?_⟩
    · rw [operator_call_trace, h]
    · rw [ho, h]; rfl

/-- C20 at a concrete input: the wrapper at address `0` holds a functor of type `2`
with bytes `9` and is called with the argument `5`. -/
theorem C20_call_keeps_table_witness :
    (operator_call plainEnv (emptyWorld.set 0 (heldObj 2 9)) 0 5).1 = Except.ok 14 ∧
    (operator_call plainEnv (emptyWorld.set 0 (heldObj 2 9)) 0 5).2.trace =
      (emptyWorld.set 0 (heldObj 2 9)).trace ++ [Event.call 2 0 5] ∧
    (operator_call plainEnv emptyWorld 0 5).2 = emptyWorld :=
  ⟨((C20_call_keeps_table plainEnv (emptyWorld.set 0 (heldObj 2 9)) 0 5).2.2.2.2.2.2.2.2.2.2
      2 rfl).1,
   ((C20_call_keeps_table plainEnv (emptyWorld.set 0 (heldObj 2 9)) 0 5).2.2.2.2.2.2.2.2.2.2
      2 rfl).2.1,
   ((C20_call_keeps_table plainEnv emptyWorld 0 5).2.2.2.2.2.2.2.2.2.1 rfl).2⟩

end Claims4

end FixedSizeFunction
